import Mathlib

/-!
# HI_SPI_24_BIT: a 24-bit master-mode SPI driver for the ATmega328P

Shallow embedding of `src/src/HI_SPI_24_BIT.cpp` / `HI_SPI_24_BIT.h`.

* Machine integers are `Nat`; every store into an 8-bit register or an
  `uint8_t` variable is taken `% 256`, every `uint32_t` result `% 2 ^ 32`.
* The memory-mapped registers `DDRB`, `SPCR`, `SPSR`, `SPDR` and the digital
  lines are fields of the hardware state `HW`.
* The attached peripheral and the shift engine are the environment: a
  `Peripheral` answers every outgoing byte with an incoming byte and with the
  number of status polls the shift takes (or with "never").
* Every hardware access is appended to a log, kept beside the hardware state.
* The busy-wait loop of `transferByte` is bounded by a fuel argument; running
  out of fuel is `none`.
-/

namespace HISPI

/-! ## Constants of the platform headers -/

/-- Modelled from the spec: the level constant `HIGH` of `Arduino.h` (deasserted chip-select). -/
def HIGH : Nat := 1
/-- Modelled from the spec: the level constant `LOW` of `Arduino.h` (asserted chip-select). -/
def LOW : Nat := 0
/-- Modelled from the spec: the direction constant `OUTPUT` of `Arduino.h`. -/
def OUTPUT : Nat := 1
/-- Modelled from the spec: the direction constant `INPUT` of `Arduino.h`. -/
def INPUT : Nat := 0

/-- Modelled from the spec: bit position of the engine-enable flag in `SPCR` (`avr/io.h`, ATmega328P). -/
def SPE : Nat := 6
/-- Modelled from the spec: bit position of the master-role flag in `SPCR` (`avr/io.h`). -/
def MSTR : Nat := 4
/-- Modelled from the spec: bit position of the clock-polarity flag in `SPCR` (`avr/io.h`). -/
def CPOL : Nat := 3
/-- Modelled from the spec: bit position of the clock-phase flag in `SPCR` (`avr/io.h`). -/
def CPHA : Nat := 2
/-- Modelled from the spec: bit position of the transfer-complete flag in `SPSR` (`avr/io.h`). -/
def SPIF : Nat := 7
/-- Modelled from the spec: bit position of the double-speed flag in `SPSR` (`avr/io.h`). -/
def SPI2X : Nat := 0
/-- Modelled from the spec: direction bit of PB2, the engine's own slave-select line (`avr/io.h`). -/
def DDB2 : Nat := 2
/-- Modelled from the spec: direction bit of PB3, the data-out line (`avr/io.h`). -/
def DDB3 : Nat := 3
/-- Modelled from the spec: direction bit of PB5, the clock line (`avr/io.h`). -/
def DDB5 : Nat := 5

/-- Header constant `SPI_MODE_0` (CPOL=0, CPHA=0). -/
def SPI_MODE_0 : Nat := 0x00
/-- Header constant `SPI_MODE_1` (CPOL=0, CPHA=1). -/
def SPI_MODE_1 : Nat := 0x04
/-- Header constant `SPI_MODE_2` (CPOL=1, CPHA=0). -/
def SPI_MODE_2 : Nat := 0x08
/-- Header constant `SPI_MODE_3` (CPOL=1, CPHA=1). -/
def SPI_MODE_3 : Nat := 0x0C

/-! ## Hardware model -/

/-- One hardware access made by the driver, in program order. -/
inductive Event where
  | pinMode (pin mode : Nat)
  | digitalWrite (pin val : Nat)
  | rdDDRB (v : Nat)
  | wrDDRB (v : Nat)
  | wrSPCR (v : Nat)
  | rdSPSR (v : Nat)
  | wrSPSR (v : Nat)
  | wrSPDR (v : Nat)
  | rdSPDR (v : Nat)
  deriving DecidableEq

/-- Behaviour of the attached hardware for one byte exchange, from its state
`x` and the outgoing byte `d`: the byte shifted back, the state afterwards, and
the number of status reads that still show the transfer-complete flag clear
(`none`: the flag is never set). -/
structure Peripheral (σ : Type) where
  respond : σ → Nat → Nat
  next : σ → Nat → σ
  delay : σ → Nat → Option Nat

/-- Registers of the serial engine and of port B, the digital lines, the shift
in flight (`some (k, rx)`: byte `rx` arrives after `k` more poll periods plus
one) and the state of the peripheral. -/
structure HW (σ : Type) where
  DDRB : Nat
  SPCR : Nat
  SPSR : Nat
  SPDR : Nat
  pinDir : Nat → Nat
  pinLevel : Nat → Nat
  inflight : Option (Nat × Nat)
  dev : σ

/-- Hardware state together with the log of accesses made so far. -/
structure Sys (σ : Type) where
  hw : HW σ
  log : List Event

variable {σ : Type}

/-- Append one access to the log. -/
def emit (e : Event) (s : Sys σ) : Sys σ :=
  { s with log := s.log ++ [e] }

/-- The shift finishes: the flag is set and the received byte is in the data register. -/
def HW.complete (rx : Nat) (h : HW σ) : HW σ :=
  { h with SPSR := h.SPSR ||| 2 ^ SPIF, SPDR := rx % 256, inflight := none }

/-- Start (or continue) a shift that takes `k` more poll periods. -/
def HW.arm (h : HW σ) (rx : Nat) : Option Nat → HW σ
  | none => { h with inflight := none }
  | some 0 => h.complete rx
  | some (k + 1) => { h with inflight := some (k, rx) }

/-- One poll period elapses. -/
def HW.tick (h : HW σ) : HW σ :=
  match h.inflight with
  | none => h
  | some (k, rx) => h.arm rx (some k)

/-- Modelled from the spec: the digital-line capability `setLineDirection(lineId, direction)`
(`pinMode` of the Arduino core, which is not part of the repository). -/
def pinMode (pin mode : Nat) (s : Sys σ) : Sys σ :=
  emit (.pinMode pin mode)
    { s with hw := { s.hw with pinDir := Function.update s.hw.pinDir pin mode } }

/-- Modelled from the spec: the digital-line capability `setLineLevel(lineId, level)`
(`digitalWrite` of the Arduino core, which is not part of the repository). -/
def digitalWrite (pin val : Nat) (s : Sys σ) : Sys σ :=
  emit (.digitalWrite pin val)
    { s with hw := { s.hw with pinLevel := Function.update s.hw.pinLevel pin val } }

/-- Read of the port-direction register. -/
def readDDRB (s : Sys σ) : Nat × Sys σ :=
  (s.hw.DDRB % 256, emit (.rdDDRB (s.hw.DDRB % 256)) s)

/-- Write of the port-direction register. -/
def writeDDRB (v : Nat) (s : Sys σ) : Sys σ :=
  emit (.wrDDRB (v % 256)) { s with hw := { s.hw with DDRB := v % 256 } }

/-- Write of the control register. -/
def writeSPCR (v : Nat) (s : Sys σ) : Sys σ :=
  emit (.wrSPCR (v % 256)) { s with hw := { s.hw with SPCR := v % 256 } }

/-- Read of the status register. -/
def readSPSR (s : Sys σ) : Nat × Sys σ :=
  (s.hw.SPSR % 256, emit (.rdSPSR (s.hw.SPSR % 256)) s)

/-- Write of the status register. -/
def writeSPSR (v : Nat) (s : Sys σ) : Sys σ :=
  emit (.wrSPSR (v % 256)) { s with hw := { s.hw with SPSR := v % 256 } }

/-- Write of the data register: the transfer-complete flag reads clear, the
peripheral takes the byte `v`, and the shift runs for the number of poll periods
the peripheral's `delay` gives (for ever when it gives `none`). -/
def writeSPDR (P : Peripheral σ) (v : Nat) (s : Sys σ) : Sys σ :=
  let d := v % 256
  let h := { s.hw with SPSR := s.hw.SPSR &&& 0x7F, dev := P.next s.hw.dev d }
  emit (.wrSPDR d) { s with hw := h.arm (P.respond s.hw.dev d) (P.delay s.hw.dev d) }

/-- Read of the data register. -/
def readSPDR (s : Sys σ) : Nat × Sys σ :=
  (s.hw.SPDR % 256, emit (.rdSPDR (s.hw.SPDR % 256)) s)

/-! ## The driver -/

/-- The driver instance: it only stores the chip-select pin number. -/
structure HI_SPI_24_BIT where
  _csPin : Nat
  deriving DecidableEq

/-- Constructor `HI_SPI_24_BIT::HI_SPI_24_BIT(uint8_t chipSelectPin)`. -/
def HI_SPI_24_BIT.new (chipSelectPin : Nat) : HI_SPI_24_BIT :=
  { _csPin := chipSelectPin }

/-- Method `HI_SPI_24_BIT::begin(uint8_t mode, uint8_t clockDiv)`. -/
def begin (self : HI_SPI_24_BIT) (mode clockDiv : Nat) (s : Sys σ) : Sys σ :=
  -- 1. chip-select pin
  let s := pinMode self._csPin OUTPUT s
  let s := digitalWrite self._csPin HIGH s
  -- 2. DDRB |= (1 << DDB3) | (1 << DDB5) | (1 << DDB2)
  let (ddrb, s) := readDDRB s
  let s := writeDDRB (ddrb ||| ((1 <<< DDB3) ||| (1 <<< DDB5) ||| (1 <<< DDB2))) s
  -- 3. control word
  let control_reg := ((1 <<< SPE) ||| (1 <<< MSTR)) % 256
  let control_reg := (control_reg ||| ((mode &&& (1 <<< CPOL)) ||| (mode &&& (1 <<< CPHA)))) % 256
  let control_reg := (control_reg ||| (clockDiv &&& 0x03)) % 256
  let s := writeSPCR control_reg s
  -- 4. double-speed bit; `~(1 << SPI2X)` is a 16-bit `int` on AVR
  if clockDiv &&& 0x04 ≠ 0 then
    let (spsr, s) := readSPSR s
    writeSPSR (spsr ||| (1 <<< SPI2X)) s
  else
    let (spsr, s) := readSPSR s
    writeSPSR (spsr &&& (0xFFFF ^^^ (1 <<< SPI2X))) s

/-- The loop `while (!(SPSR & (1 << SPIF)));` with at most `fuel` status reads. -/
def waitSPIF : Nat → Sys σ → Option (Sys σ)
  | 0, _ => none
  | fuel + 1, s =>
    let (spsr, s1) := readSPSR s
    if spsr &&& (1 <<< SPIF) = 0 then waitSPIF fuel { s1 with hw := s1.hw.tick }
    else some s1

/-- Method `HI_SPI_24_BIT::transferByte(uint8_t data)`. -/
def transferByte (P : Peripheral σ) (fuel : Nat) (_self : HI_SPI_24_BIT) (data : Nat)
    (s : Sys σ) : Option (Nat × Sys σ) :=
  let s := writeSPDR P data s
  match waitSPIF fuel s with
  | none => none
  | some s => some (readSPDR s)

/-- Method `HI_SPI_24_BIT::transmit24Bit(uint32_t data)`. -/
def transmit24Bit (P : Peripheral σ) (fuel : Nat) (self : HI_SPI_24_BIT) (data : Nat)
    (s : Sys σ) : Option (Sys σ) :=
  match transferByte P fuel self ((data >>> 16) % 256) s with
  | none => none
  | some (_, s) =>
    match transferByte P fuel self ((data >>> 8) % 256) s with
    | none => none
    | some (_, s) =>
      match transferByte P fuel self (data % 256) s with
      | none => none
      | some (_, s) => some s

/-- Method `HI_SPI_24_BIT::transfer24Bit(uint32_t data)`. -/
def transfer24Bit (P : Peripheral σ) (fuel : Nat) (self : HI_SPI_24_BIT) (data : Nat)
    (s : Sys σ) : Option (Nat × Sys σ) :=
  let receivedData := 0
  match transferByte P fuel self ((data >>> 16) % 256) s with
  | none => none
  | some (r1, s) =>
    let receivedData := (receivedData ||| ((r1 <<< 16) % 2 ^ 32)) % 2 ^ 32
    match transferByte P fuel self ((data >>> 8) % 256) s with
    | none => none
    | some (r2, s) =>
      let receivedData := (receivedData ||| ((r2 <<< 8) % 2 ^ 32)) % 2 ^ 32
      match transferByte P fuel self (data % 256) s with
      | none => none
      | some (r3, s) =>
        let receivedData := (receivedData ||| r3) % 2 ^ 32
        some (receivedData, s)

/-- Method `HI_SPI_24_BIT::beginTransaction()`. -/
def beginTransaction (self : HI_SPI_24_BIT) (s : Sys σ) : Sys σ :=
  digitalWrite self._csPin LOW s

/-- Method `HI_SPI_24_BIT::endTransaction()`. -/
def endTransaction (self : HI_SPI_24_BIT) (s : Sys σ) : Sys σ :=
  digitalWrite self._csPin HIGH s

/-! ## Observations on logs -/

/-- Bytes written to the data register, in order. -/
def dataWrites (tr : List Event) : List Nat :=
  tr.filterMap fun e => match e with
    | .wrSPDR v => some v
    | _ => none

/-- Bytes read from the data register, in order. -/
def dataReads (tr : List Event) : List Nat :=
  tr.filterMap fun e => match e with
    | .rdSPDR v => some v
    | _ => none

/-- Levels driven onto digital line `pin`, in order. -/
def levelWrites (pin : Nat) (tr : List Event) : List Nat :=
  tr.filterMap fun e => match e with
    | .digitalWrite p v => if p = pin then some v else none
    | _ => none

/-- Result of a completed exchange of byte `d` that took `n` idle polls:
the received byte and the state afterwards. -/
def exchanged (P : Peripheral σ) (d n : Nat) (s : Sys σ) : Nat × Sys σ :=
  let b := d % 256
  let rx := P.respond s.hw.dev b % 256
  let st := s.hw.SPSR &&& 0x7F
  (rx,
   { hw := { s.hw with SPSR := st ||| 2 ^ SPIF, SPDR := rx, inflight := none,
                       dev := P.next s.hw.dev b },
     log := s.log ++ (Event.wrSPDR b :: List.replicate n (Event.rdSPSR st)
              ++ [Event.rdSPSR ((st ||| 2 ^ SPIF) % 256), Event.rdSPDR rx]) })

/-- The accesses of one completed exchange. -/
def exchangeTrace (d n st rx : Nat) : List Event :=
  Event.wrSPDR (d % 256) :: List.replicate n (Event.rdSPSR st)
    ++ [Event.rdSPSR ((st ||| 2 ^ SPIF) % 256), Event.rdSPDR rx]

/-- Result of the three exchanges of a 24-bit word that took `n1`, `n2`, `n3`
idle polls: the reassembled value and the state afterwards. -/
def word24 (P : Peripheral σ) (v n1 n2 n3 : Nat) (s : Sys σ) : Nat × Sys σ :=
  let e1 := exchanged P ((v >>> 16) % 256) n1 s
  let e2 := exchanged P ((v >>> 8) % 256) n2 e1.2
  let e3 := exchanged P (v % 256) n3 e2.2
  ((e1.1 <<< 16) ||| (e2.1 <<< 8) ||| e3.1, e3.2)

/-- The poll counts `n1`, `n2`, `n3` are those the hardware takes for the three
bytes of `v` from state `s`. -/
def delays (P : Peripheral σ) (v n1 n2 n3 : Nat) (s : Sys σ) : Prop :=
  P.delay s.hw.dev ((v >>> 16) % 256) = some n1 ∧
  P.delay (exchanged P ((v >>> 16) % 256) n1 s).2.hw.dev ((v >>> 8) % 256) = some n2 ∧
  P.delay (exchanged P ((v >>> 8) % 256) n2
      (exchanged P ((v >>> 16) % 256) n1 s).2).2.hw.dev (v % 256) = some n3

/-- The control word `begin` computes from its arguments (`control_reg`). -/
def controlWord (mode clockDiv : Nat) : Nat :=
  let control_reg := ((1 <<< SPE) ||| (1 <<< MSTR)) % 256
  let control_reg := (control_reg ||| ((mode &&& (1 <<< CPOL)) ||| (mode &&& (1 <<< CPHA)))) % 256
  (control_reg ||| (clockDiv &&& 0x03)) % 256

/-- The (polarity, phase) pair held by the control register. -/
def clockSetting (s : Sys σ) : Bool × Bool :=
  (Nat.testBit s.hw.SPCR CPOL, Nat.testBit s.hw.SPCR CPHA)

/-- The sequence `begin(SPI_MODE_0, 0x01); beginTransaction(); r = transfer24Bit(v);
endTransaction()`; the result is `r` and the final state. -/
def scenario (P : Peripheral σ) (fuel : Nat) (self : HI_SPI_24_BIT) (v : Nat) (s : Sys σ) :
    Option (Nat × Sys σ) :=
  let s := begin self SPI_MODE_0 0x01 s
  let s := beginTransaction self s
  match transfer24Bit P fuel self v s with
  | none => none
  | some (r, s) => some (r, endTransaction self s)

/-- The value `begin` writes back to the status register after reading `spsr`. -/
def statusWord (clockDiv spsr : Nat) : Nat :=
  if clockDiv &&& 0x04 ≠ 0 then spsr ||| (1 <<< SPI2X)
  else spsr &&& (0xFFFF ^^^ (1 <<< SPI2X))

/-- The accesses `begin` makes, in program order, from hardware state `h`. -/
def beginTrace (self : HI_SPI_24_BIT) (mode clockDiv : Nat) (h : HW σ) : List Event :=
  [ Event.pinMode self._csPin OUTPUT,
    Event.digitalWrite self._csPin HIGH,
    Event.rdDDRB (h.DDRB % 256),
    Event.wrDDRB (((h.DDRB % 256) ||| ((1 <<< DDB3) ||| (1 <<< DDB5) ||| (1 <<< DDB2))) % 256),
    Event.wrSPCR (controlWord mode clockDiv % 256),
    Event.rdSPSR (h.SPSR % 256),
    Event.wrSPSR (statusWord clockDiv (h.SPSR % 256) % 256) ]

/-- The clock ratio the header documents for each `clockDiv` value
(`0x00: F_CPU/4` ... `0x07: F_CPU/64`); 0 for values the header does not list. -/
def documentedRatio : Nat → Nat
  | 0 => 4
  | 1 => 16
  | 2 => 64
  | 3 => 128
  | 4 => 2
  | 5 => 8
  | 6 => 32
  | 7 => 64
  | _ => 0

/-- Modelled from the spec: the engine's clock-rate table (hardware, not part of the
repository): base ratios 4, 16, 64, 128 for rate field 0..3, halved when the
double-speed modifier is set. -/
def clockRatio (spi2x : Bool) (spr : Nat) : Nat :=
  let base := match spr with
    | 0 => 4
    | 1 => 16
    | 2 => 64
    | _ => 128
  if spi2x then base / 2 else base

/-- The clock ratio selected by the control and status registers. -/
def selectedRatio (s : Sys σ) : Nat :=
  clockRatio (Nat.testBit s.hw.SPSR SPI2X) (s.hw.SPCR &&& 0x03)

/-- Accesses other than those of the data and status registers made by reading:
writes of the port-direction, control and status registers and of digital lines. -/
def otherWrites (tr : List Event) : List Event :=
  tr.filter fun e => match e with
    | .pinMode _ _ => true
    | .digitalWrite _ _ => true
    | .wrDDRB _ => true
    | .wrSPCR _ => true
    | .wrSPSR _ => true
    | _ => false

/-- Values read from the status register, in order. -/
def statusReads (tr : List Event) : List Nat :=
  tr.filterMap fun e => match e with
    | .rdSPSR v => some v
    | _ => none

/-! ## Concrete hardware for evaluation -/

/-- A peripheral that answers every byte `b` with `f b` after `n` idle polls. -/
def stub (f : Nat → Nat) (n : Nat) : Peripheral Unit :=
  { respond := fun _ b => f b, next := fun _ _ => (), delay := fun _ _ => some n }

/-- Power-on hardware: all registers zero, all lines inputs at low level. -/
def reset : Sys Unit :=
  { hw := { DDRB := 0, SPCR := 0, SPSR := 0, SPDR := 0, pinDir := fun _ => INPUT,
            pinLevel := fun _ => LOW, inflight := none, dev := () },
    log := [] }

theorem flag_clear_of_lt : ∀ x, x < 128 → (x % 256) &&& (1 <<< SPIF) = 0 := by
  decide

theorem flag_set_of_lt : ∀ x, x < 128 → ((x ||| 2 ^ SPIF) % 256) &&& (1 <<< SPIF) ≠ 0 := by
  decide

theorem flag_facts : ∀ x, x < 128 →
    (x ||| 2 ^ SPIF) % 256 = x ||| (1 <<< SPIF) ∧ x &&& (1 <<< SPIF) = 0 ∧
    (x ||| (1 <<< SPIF)) &&& (1 <<< SPIF) ≠ 0 := by
  decide

theorem mod_of_lt_128 : ∀ x, x < 128 → x % 256 = x := by
  intro x hx; omega

theorem and_7F_lt (x : Nat) : x &&& 0x7F < 128 :=
  Nat.and_lt_two_pow x (show 0x7F < 2 ^ 7 by decide)

theorem arm_inflight (h : HW σ) (x : Option (Nat × Nat)) (rx : Nat) (k : Option Nat) :
    HW.arm { h with inflight := x } rx k = HW.arm h rx k := by
  rcases k with _ | _ | k <;> rfl

/-- With the flag clear and nothing in flight the loop never ends. -/
theorem waitSPIF_stuck (fuel : Nat) (h : HW σ) (l : List Event) (hs : h.SPSR < 128)
    (hi : h.inflight = none) : waitSPIF fuel { hw := h, log := l } = none := by
  induction fuel generalizing l with
  | zero => rfl
  | succ fuel ih =>
    have hc := flag_clear_of_lt h.SPSR hs
    simp only [waitSPIF, readSPSR, emit, hc, if_true]
    have ht : h.tick = h := by simp [HW.tick, hi]
    rw [ht]
    exact ih _

theorem tick_arm_succ (h : HW σ) (rx k : Nat) :
    (h.arm rx (some (k + 1))).tick = h.arm rx (some k) := by
  show HW.arm { h with inflight := some (k, rx) } rx (some k) = _
  exact arm_inflight h _ rx _

/-- The loop on a shift that needs `n` more poll periods. -/
theorem waitSPIF_arm (n fuel : Nat) (h : HW σ) (rx : Nat) (l : List Event)
    (hs : h.SPSR < 128) :
    waitSPIF fuel { hw := h.arm rx (some n), log := l } =
      if n < fuel then
        some { hw := h.complete rx,
               log := l ++ (List.replicate n (Event.rdSPSR h.SPSR)
                      ++ [Event.rdSPSR ((h.SPSR ||| 2 ^ SPIF) % 256)]) }
      else none := by
  induction n generalizing fuel l with
  | zero =>
    cases fuel with
    | zero => rfl
    | succ fuel =>
      have hc : ((h.complete rx).SPSR % 256) &&& (1 <<< SPIF) ≠ 0 := flag_set_of_lt h.SPSR hs
      have ha : h.arm rx (some 0) = h.complete rx := rfl
      rw [ha]
      simp only [waitSPIF, readSPSR, emit, hc, if_false]
      simp [HW.complete]
  | succ n ih =>
    cases fuel with
    | zero => rfl
    | succ fuel =>
      have hc : ((h.arm rx (some (n + 1))).SPSR % 256) &&& (1 <<< SPIF) = 0 :=
        flag_clear_of_lt h.SPSR hs
      have hm : (h.arm rx (some (n + 1))).SPSR % 256 = h.SPSR := mod_of_lt_128 h.SPSR hs
      simp only [waitSPIF, readSPSR, emit, hc, if_true]
      rw [tick_arm_succ, ih fuel, hm]
      by_cases hlt : n < fuel
      · simp [hlt, List.replicate_succ]
      · simp [hlt]

/-- Closed form of the byte-exchange primitive. -/
theorem transferByte_eq (P : Peripheral σ) (fuel : Nat) (self : HI_SPI_24_BIT) (d : Nat)
    (s : Sys σ) :
    transferByte P fuel self d s =
      match P.delay s.hw.dev (d % 256) with
      | none => none
      | some n => if n < fuel then some (exchanged P d n s) else none := by
  have hs := and_7F_lt s.hw.SPSR
  cases hd : P.delay s.hw.dev (d % 256) with
  | none =>
    simp only [transferByte, writeSPDR, emit, hd, HW.arm]
    rw [waitSPIF_stuck fuel _ _ hs rfl]
  | some n =>
    simp only [transferByte, writeSPDR, emit, hd]
    rw [waitSPIF_arm n fuel _ _ _ hs]
    by_cases hlt : n < fuel
    · simp [hlt, readSPDR, emit, exchanged, HW.complete]
    · simp [hlt]

theorem transferByte_some_iff (P : Peripheral σ) (fuel : Nat) (self : HI_SPI_24_BIT) (d : Nat)
    (s : Sys σ) (r : Nat × Sys σ) :
    transferByte P fuel self d s = some r ↔
      ∃ n, P.delay s.hw.dev (d % 256) = some n ∧ n < fuel ∧ r = exchanged P d n s := by
  rw [transferByte_eq]
  cases hd : P.delay s.hw.dev (d % 256) with
  | none => simp
  | some n =>
    by_cases hlt : n < fuel
    · simp [hlt, eq_comm]
    · simp [hlt]

theorem transferByte_of_delay (P : Peripheral σ) (fuel : Nat) (self : HI_SPI_24_BIT) (d n : Nat)
    (s : Sys σ) (hd : P.delay s.hw.dev (d % 256) = some n) (hlt : n < fuel) :
    transferByte P fuel self d s = some (exchanged P d n s) := by
  rw [transferByte_eq, hd]; simp [hlt]

theorem exchanged_fst_lt (P : Peripheral σ) (d n : Nat) (s : Sys σ) :
    (exchanged P d n s).1 < 256 :=
  Nat.mod_lt _ (by decide)

theorem dataWrites_append (a b : List Event) :
    dataWrites (a ++ b) = dataWrites a ++ dataWrites b := by
  simp [dataWrites]

theorem dataReads_append (a b : List Event) :
    dataReads (a ++ b) = dataReads a ++ dataReads b := by
  simp [dataReads]

theorem levelWrites_append (p : Nat) (a b : List Event) :
    levelWrites p (a ++ b) = levelWrites p a ++ levelWrites p b := by
  simp [levelWrites]

theorem exchanged_log (P : Peripheral σ) (d n : Nat) (s : Sys σ) :
    (exchanged P d n s).2.log =
      s.log ++ exchangeTrace d n (s.hw.SPSR &&& 0x7F) (exchanged P d n s).1 := rfl

theorem dataWrites_exchangeTrace (d n st rx : Nat) :
    dataWrites (exchangeTrace d n st rx) = [d % 256] := by
  simp [exchangeTrace, dataWrites]

theorem dataReads_exchangeTrace (d n st rx : Nat) :
    dataReads (exchangeTrace d n st rx) = [rx] := by
  simp [exchangeTrace, dataReads]

theorem levelWrites_exchangeTrace (p d n st rx : Nat) :
    levelWrites p (exchangeTrace d n st rx) = [] := by
  simp [exchangeTrace, levelWrites]

theorem or_bytes (r1 r2 r3 : Nat) (h2 : r2 < 256) (h3 : r3 < 256) :
    (r1 <<< 16) ||| (r2 <<< 8) ||| r3 = r1 * 65536 + r2 * 256 + r3 := by
  have e1 : (r1 <<< 16) ||| (r2 <<< 8) = 2 ^ 16 * r1 + 2 ^ 8 * r2 := by
    rw [Nat.shiftLeft_eq, Nat.shiftLeft_eq, Nat.mul_comm r1, Nat.mul_comm r2]
    exact (Nat.mul_add_lt_is_or (show 2 ^ 8 * r2 < 2 ^ 16 by omega) r1).symm
  have e2 : 2 ^ 16 * r1 + 2 ^ 8 * r2 = 2 ^ 8 * (256 * r1 + r2) := by omega
  rw [e1, e2, ← Nat.mul_add_lt_is_or (show r3 < 2 ^ 8 by omega)]
  omega

/-- The `uint32_t` accumulation of `transfer24Bit` never overflows on bytes. -/
theorem assemble_eq (r1 r2 r3 : Nat) (h1 : r1 < 256) (h2 : r2 < 256) (h3 : r3 < 256) :
    ((((0 ||| ((r1 <<< 16) % 2 ^ 32)) % 2 ^ 32) ||| ((r2 <<< 8) % 2 ^ 32)) % 2 ^ 32 ||| r3)
        % 2 ^ 32 = (r1 <<< 16) ||| (r2 <<< 8) ||| r3 := by
  have a1 : (r1 <<< 16) % 2 ^ 32 = r1 <<< 16 := by
    rw [Nat.shiftLeft_eq]; apply Nat.mod_eq_of_lt; omega
  have a2 : (r2 <<< 8) % 2 ^ 32 = r2 <<< 8 := by
    rw [Nat.shiftLeft_eq]; apply Nat.mod_eq_of_lt; omega
  have a3 : ((r1 <<< 16) ||| (r2 <<< 8)) % 2 ^ 32 = (r1 <<< 16) ||| (r2 <<< 8) := by
    have := or_bytes r1 r2 0 h2 (by decide)
    simp only [Nat.or_zero] at this
    rw [this]; apply Nat.mod_eq_of_lt; omega
  rw [Nat.zero_or, a1, a1, a2, a3]
  rw [or_bytes r1 r2 r3 h2 h3]; apply Nat.mod_eq_of_lt; omega

theorem transfer24Bit_some_iff (P : Peripheral σ) (fuel : Nat) (self : HI_SPI_24_BIT)
    (v : Nat) (s : Sys σ) (r : Nat × Sys σ) :
    transfer24Bit P fuel self v s = some r ↔
      ∃ n1 n2 n3, delays P v n1 n2 n3 s ∧ n1 < fuel ∧ n2 < fuel ∧ n3 < fuel ∧
        r = word24 P v n1 n2 n3 s := by
  constructor
  · intro h
    unfold transfer24Bit at h
    cases h1 : transferByte P fuel self ((v >>> 16) % 256) s with
    | none => simp [h1] at h
    | some p1 =>
      obtain ⟨n1, d1, l1, rfl⟩ := (transferByte_some_iff _ _ _ _ _ _).1 h1
      simp only [h1] at h
      cases h2 : transferByte P fuel self ((v >>> 8) % 256)
          (exchanged P ((v >>> 16) % 256) n1 s).2 with
      | none => simp [h2] at h
      | some p2 =>
        obtain ⟨n2, d2, l2, rfl⟩ := (transferByte_some_iff _ _ _ _ _ _).1 h2
        simp only [h2] at h
        cases h3 : transferByte P fuel self (v % 256)
            (exchanged P ((v >>> 8) % 256) n2 (exchanged P ((v >>> 16) % 256) n1 s).2).2 with
        | none => simp [h3] at h
        | some p3 =>
          obtain ⟨n3, d3, l3, rfl⟩ := (transferByte_some_iff _ _ _ _ _ _).1 h3
          simp only [h3] at h
          refine ⟨n1, n2, n3, ⟨?_, ?_, ?_⟩, l1, l2, l3, ?_⟩
          · simpa using d1
          · simpa using d2
          · simpa using d3
          · rw [← Option.some.inj h, word24]
            rw [assemble_eq _ _ _ (exchanged_fst_lt _ _ _ _) (exchanged_fst_lt _ _ _ _)
              (exchanged_fst_lt _ _ _ _)]
  · rintro ⟨n1, n2, n3, ⟨d1, d2, d3⟩, l1, l2, l3, rfl⟩
    have h1 := transferByte_of_delay P fuel self ((v >>> 16) % 256) n1 s (by simpa using d1) l1
    have h2 := transferByte_of_delay P fuel self ((v >>> 8) % 256) n2 _ (by simpa using d2) l2
    have h3 := transferByte_of_delay P fuel self (v % 256) n3 _ (by simpa using d3) l3
    unfold transfer24Bit
    simp only [h1, h2, h3, word24]
    rw [assemble_eq _ _ _ (exchanged_fst_lt _ _ _ _) (exchanged_fst_lt _ _ _ _)
      (exchanged_fst_lt _ _ _ _)]

theorem and_FF (x : Nat) : x &&& 0xFF = x % 256 :=
  Nat.and_pow_two_sub_one_eq_mod x 8

theorem and_FFFFFF (x : Nat) : x &&& 0xFFFFFF = x % 16777216 :=
  Nat.and_pow_two_sub_one_eq_mod x 24

/-- The three bytes of a word, put back together, are its low 24 bits. -/
theorem split24 (v : Nat) :
    (((v >>> 16) % 256) <<< 16) ||| (((v >>> 8) % 256) <<< 8) ||| (v % 256) = v &&& 0xFFFFFF := by
  rw [or_bytes _ _ _ (Nat.mod_lt _ (by decide)) (Nat.mod_lt _ (by decide)), and_FFFFFF,
    Nat.shiftRight_eq_div_pow, Nat.shiftRight_eq_div_pow]
  omega

theorem exchanged_fst (P : Peripheral σ) (d n : Nat) (s : Sys σ) :
    (exchanged P d n s).1 = P.respond s.hw.dev (d % 256) % 256 := rfl

theorem word24_log (P : Peripheral σ) (v n1 n2 n3 : Nat) (s : Sys σ) :
    ∃ st1 st2 st3 r1 r2 r3, (word24 P v n1 n2 n3 s).2.log =
      s.log ++ (exchangeTrace ((v >>> 16) % 256) n1 st1 r1
        ++ exchangeTrace ((v >>> 8) % 256) n2 st2 r2 ++ exchangeTrace (v % 256) n3 st3 r3) := by
  refine ⟨s.hw.SPSR &&& 0x7F,
    (exchanged P ((v >>> 16) % 256) n1 s).2.hw.SPSR &&& 0x7F,
    (exchanged P ((v >>> 8) % 256) n2 (exchanged P ((v >>> 16) % 256) n1 s).2).2.hw.SPSR &&& 0x7F,
    (exchanged P ((v >>> 16) % 256) n1 s).1,
    (exchanged P ((v >>> 8) % 256) n2 (exchanged P ((v >>> 16) % 256) n1 s).2).1,
    (exchanged P (v % 256) n3
      (exchanged P ((v >>> 8) % 256) n2 (exchanged P ((v >>> 16) % 256) n1 s).2).2).1, ?_⟩
  simp only [word24, exchanged_log, List.append_assoc]

/-- Closed form of the hardware state `begin` leaves. -/
theorem begin_hw (self : HI_SPI_24_BIT) (mode clockDiv : Nat) (s : Sys σ) :
    (begin self mode clockDiv s).hw =
      { s.hw with
        pinDir := Function.update s.hw.pinDir self._csPin OUTPUT
        pinLevel := Function.update s.hw.pinLevel self._csPin HIGH
        DDRB := ((s.hw.DDRB % 256) ||| ((1 <<< DDB3) ||| (1 <<< DDB5) ||| (1 <<< DDB2))) % 256
        SPCR := controlWord mode clockDiv % 256
        SPSR := statusWord clockDiv (s.hw.SPSR % 256) % 256 } := by
  unfold begin statusWord
  by_cases h : clockDiv &&& 0x04 ≠ 0
  · simp only [if_pos h]; rfl
  · simp only [if_neg h]; rfl

/-- Closed form of the log `begin` leaves. -/
theorem begin_log (self : HI_SPI_24_BIT) (mode clockDiv : Nat) (s : Sys σ) :
    (begin self mode clockDiv s).log = s.log ++ beginTrace self mode clockDiv s.hw := by
  unfold begin beginTrace statusWord
  by_cases h : clockDiv &&& 0x04 ≠ 0
  · simp only [if_pos h]
    simp [pinMode, digitalWrite, readDDRB, writeDDRB, writeSPCR, readSPSR, writeSPSR, emit,
      controlWord]
  · simp only [if_neg h]
    simp [pinMode, digitalWrite, readDDRB, writeDDRB, writeSPCR, readSPSR, writeSPSR, emit,
      controlWord]

theorem controlWord_mod (mode clockDiv : Nat) :
    controlWord mode clockDiv % 256 = controlWord mode clockDiv :=
  Nat.mod_mod _ _

theorem and_low4 (x m : Nat) (hm : 15 &&& m = m) : x &&& m = (x % 16) &&& m := by
  have h : x % 16 = x &&& 15 := (Nat.and_pow_two_sub_one_eq_mod x 4).symm
  rw [h, Nat.and_assoc, hm]

/-- The control word depends only on the low four bits of `mode` and the low two of `clockDiv`. -/
theorem controlWord_low (mode clockDiv : Nat) :
    controlWord mode clockDiv = controlWord (mode % 16) (clockDiv % 4) := by
  have h8 := and_low4 mode (1 <<< CPOL) (by decide)
  have h4 := and_low4 mode (1 <<< CPHA) (by decide)
  have m8 := and_low4 (mode % 16) (1 <<< CPOL) (by decide)
  have m4 := and_low4 (mode % 16) (1 <<< CPHA) (by decide)
  have h3 : clockDiv &&& 0x03 = clockDiv % 4 := Nat.and_pow_two_sub_one_eq_mod clockDiv 2
  have m3 : (clockDiv % 4) &&& 0x03 = clockDiv % 4 % 4 := Nat.and_pow_two_sub_one_eq_mod _ 2
  unfold controlWord
  simp only [h8, h4, m8, m4, h3, m3, Nat.mod_mod]

theorem controlWord_bits : ∀ a, a < 16 → ∀ c, c < 4 →
    Nat.testBit (controlWord a c) CPOL = Nat.testBit a CPOL ∧
    Nat.testBit (controlWord a c) CPHA = Nat.testBit a CPHA ∧
    controlWord a c &&& 0x03 = c := by
  decide

set_option maxRecDepth 100000 in
theorem statusWord_bit : ∀ x, x < 256 →
    Nat.testBit ((x ||| (1 <<< SPI2X)) % 256) SPI2X = true ∧
    Nat.testBit ((x &&& (0xFFFF ^^^ (1 <<< SPI2X))) % 256) SPI2X = false := by
  decide

/-! ## Claims -/

/-- C1: whenever the three byte exchanges of `transfer24Bit(v)` complete (after
`n1`, `n2`, `n3` idle polls, the loop bound exceeding each), the call returns, and
the accesses it appends to the log are exactly three byte exchanges one after the
other, for the bytes `(v>>16)&0xFF`, `(v>>8)&0xFF`, `v&0xFF` in this order: each is
one write of its byte to the data register, then the status reads that show the
flag clear, one status read that shows it set, and one read of the data register.
So the data-register writes are exactly those three bytes, the data-register reads
are exactly the three received bytes, and the value returned is their reassembly. -/
theorem transfer24Bit_outgoing_bytes (P : Peripheral σ) (fuel : Nat) (self : HI_SPI_24_BIT)
    (v n1 n2 n3 : Nat) (s : Sys σ) (hd : delays P v n1 n2 n3 s)
    (h1 : n1 < fuel) (h2 : n2 < fuel) (h3 : n3 < fuel) :
    ∃ r s' tr st1 st2 st3 r1 r2 r3,
      transfer24Bit P fuel self v s = some (r, s') ∧ s'.log = s.log ++ tr ∧
      tr =
        (Event.wrSPDR ((v >>> 16) &&& 0xFF) :: List.replicate n1 (Event.rdSPSR st1)
          ++ [Event.rdSPSR (st1 ||| (1 <<< SPIF)), Event.rdSPDR r1])
        ++ (Event.wrSPDR ((v >>> 8) &&& 0xFF) :: List.replicate n2 (Event.rdSPSR st2)
          ++ [Event.rdSPSR (st2 ||| (1 <<< SPIF)), Event.rdSPDR r2])
        ++ (Event.wrSPDR (v &&& 0xFF) :: List.replicate n3 (Event.rdSPSR st3)
          ++ [Event.rdSPSR (st3 ||| (1 <<< SPIF)), Event.rdSPDR r3]) ∧
      (st1 &&& (1 <<< SPIF) = 0 ∧ st2 &&& (1 <<< SPIF) = 0 ∧ st3 &&& (1 <<< SPIF) = 0) ∧
      ((st1 ||| (1 <<< SPIF)) &&& (1 <<< SPIF) ≠ 0 ∧ (st2 ||| (1 <<< SPIF)) &&& (1 <<< SPIF) ≠ 0 ∧
        (st3 ||| (1 <<< SPIF)) &&& (1 <<< SPIF) ≠ 0) ∧
      dataWrites tr = [(v >>> 16) &&& 0xFF, (v >>> 8) &&& 0xFF, v &&& 0xFF] ∧
      dataReads tr = [r1, r2, r3] ∧ (dataReads tr).length = 3 ∧
      r = (r1 <<< 16) ||| (r2 <<< 8) ||| r3 := by
  have b2 : (v >>> 16) % 256 < 256 := Nat.mod_lt _ (by decide)
  have b1 : (v >>> 8) % 256 < 256 := Nat.mod_lt _ (by decide)
  have b0 : v % 256 < 256 := Nat.mod_lt _ (by decide)
  have hl : (word24 P v n1 n2 n3 s).2.log = s.log ++
      (exchangeTrace ((v >>> 16) % 256) n1 (s.hw.SPSR &&& 0x7F)
          (exchanged P ((v >>> 16) % 256) n1 s).1
        ++ exchangeTrace ((v >>> 8) % 256) n2
          ((exchanged P ((v >>> 16) % 256) n1 s).2.hw.SPSR &&& 0x7F)
          (exchanged P ((v >>> 8) % 256) n2 (exchanged P ((v >>> 16) % 256) n1 s).2).1
        ++ exchangeTrace (v % 256) n3
          ((exchanged P ((v >>> 8) % 256) n2
            (exchanged P ((v >>> 16) % 256) n1 s).2).2.hw.SPSR &&& 0x7F)
          (exchanged P (v % 256) n3 (exchanged P ((v >>> 8) % 256) n2
            (exchanged P ((v >>> 16) % 256) n1 s).2).2).1) := by
    simp only [word24, exchanged_log, List.append_assoc]
  have hw : dataWrites
      (exchangeTrace ((v >>> 16) % 256) n1 (s.hw.SPSR &&& 0x7F)
          (exchanged P ((v >>> 16) % 256) n1 s).1
        ++ exchangeTrace ((v >>> 8) % 256) n2
          ((exchanged P ((v >>> 16) % 256) n1 s).2.hw.SPSR &&& 0x7F)
          (exchanged P ((v >>> 8) % 256) n2 (exchanged P ((v >>> 16) % 256) n1 s).2).1
        ++ exchangeTrace (v % 256) n3
          ((exchanged P ((v >>> 8) % 256) n2
            (exchanged P ((v >>> 16) % 256) n1 s).2).2.hw.SPSR &&& 0x7F)
          (exchanged P (v % 256) n3 (exchanged P ((v >>> 8) % 256) n2
            (exchanged P ((v >>> 16) % 256) n1 s).2).2).1)
      = [(v >>> 16) &&& 0xFF, (v >>> 8) &&& 0xFF, v &&& 0xFF] := by
    simp only [dataWrites_append, dataWrites_exchangeTrace, and_FF, Nat.mod_mod]
    rfl
  have hr : dataReads
      (exchangeTrace ((v >>> 16) % 256) n1 (s.hw.SPSR &&& 0x7F)
          (exchanged P ((v >>> 16) % 256) n1 s).1
        ++ exchangeTrace ((v >>> 8) % 256) n2
          ((exchanged P ((v >>> 16) % 256) n1 s).2.hw.SPSR &&& 0x7F)
          (exchanged P ((v >>> 8) % 256) n2 (exchanged P ((v >>> 16) % 256) n1 s).2).1
        ++ exchangeTrace (v % 256) n3
          ((exchanged P ((v >>> 8) % 256) n2
            (exchanged P ((v >>> 16) % 256) n1 s).2).2.hw.SPSR &&& 0x7F)
          (exchanged P (v % 256) n3 (exchanged P ((v >>> 8) % 256) n2
            (exchanged P ((v >>> 16) % 256) n1 s).2).2).1)
      = [(exchanged P ((v >>> 16) % 256) n1 s).1,
         (exchanged P ((v >>> 8) % 256) n2 (exchanged P ((v >>> 16) % 256) n1 s).2).1,
         (exchanged P (v % 256) n3 (exchanged P ((v >>> 8) % 256) n2
            (exchanged P ((v >>> 16) % 256) n1 s).2).2).1] := by
    simp only [dataReads_append, dataReads_exchangeTrace]
    rfl
  obtain ⟨p1, c1, q1⟩ := flag_facts (s.hw.SPSR &&& 0x7F) (and_7F_lt _)
  obtain ⟨p2, c2, q2⟩ := flag_facts
    ((exchanged P ((v >>> 16) % 256) n1 s).2.hw.SPSR &&& 0x7F) (and_7F_lt _)
  obtain ⟨p3, c3, q3⟩ := flag_facts
    ((exchanged P ((v >>> 8) % 256) n2
      (exchanged P ((v >>> 16) % 256) n1 s).2).2.hw.SPSR &&& 0x7F) (and_7F_lt _)
  refine ⟨(word24 P v n1 n2 n3 s).1, (word24 P v n1 n2 n3 s).2, _, _, _, _, _, _, _,
    (transfer24Bit_some_iff P fuel self v s _).2 ⟨n1, n2, n3, hd, h1, h2, h3, rfl⟩,
    hl, ?_, ⟨c1, c2, c3⟩, ⟨q1, q2, q3⟩, hw, hr, ?_, rfl⟩
  · simp only [exchangeTrace, p1, p2, p3, and_FF, Nat.mod_mod]
  · rw [hr]; rfl

/-- C1 at concrete inputs: the word `0xAB123456` with an incrementing peripheral that needs two idle polls per byte. -/
theorem transfer24Bit_outgoing_bytes_witness :
    ∃ r s' tr st1 st2 st3 r1 r2 r3,
      transfer24Bit (stub (fun b => b + 1) 2) 3 (.new 10) 0xAB123456 reset = some (r, s') ∧
      s'.log = reset.log ++ tr ∧
      tr =
        (Event.wrSPDR 0x12 :: List.replicate 2 (Event.rdSPSR st1)
          ++ [Event.rdSPSR (st1 ||| (1 <<< SPIF)), Event.rdSPDR r1])
        ++ (Event.wrSPDR 0x34 :: List.replicate 2 (Event.rdSPSR st2)
          ++ [Event.rdSPSR (st2 ||| (1 <<< SPIF)), Event.rdSPDR r2])
        ++ (Event.wrSPDR 0x56 :: List.replicate 2 (Event.rdSPSR st3)
          ++ [Event.rdSPSR (st3 ||| (1 <<< SPIF)), Event.rdSPDR r3]) ∧
      (st1 &&& (1 <<< SPIF) = 0 ∧ st2 &&& (1 <<< SPIF) = 0 ∧ st3 &&& (1 <<< SPIF) = 0) ∧
      ((st1 ||| (1 <<< SPIF)) &&& (1 <<< SPIF) ≠ 0 ∧ (st2 ||| (1 <<< SPIF)) &&& (1 <<< SPIF) ≠ 0 ∧
        (st3 ||| (1 <<< SPIF)) &&& (1 <<< SPIF) ≠ 0) ∧
      dataWrites tr = [0x12, 0x34, 0x56] ∧
      dataReads tr = [r1, r2, r3] ∧ (dataReads tr).length = 3 ∧
      r = (r1 <<< 16) ||| (r2 <<< 8) ||| r3 :=
  transfer24Bit_outgoing_bytes (stub (fun b => b + 1) 2) 3 (.new 10) 0xAB123456 2 2 2 reset
    ⟨rfl, rfl, rfl⟩ (by decide) (by decide) (by decide)

/-- C2: if the byte-exchange primitive returns the byte it was given (echo), then
`transfer24Bit(v)` returns, and every value it returns is `v & 0xFFFFFF`. -/
theorem transfer24Bit_echo (P : Peripheral σ) (self : HI_SPI_24_BIT) (v : Nat) (s : Sys σ)
    (hecho : ∀ d t, d < 256 → ∃ fuel t', transferByte P fuel self d t = some (d, t')) :
    (∃ fuel s', transfer24Bit P fuel self v s = some (v &&& 0xFFFFFF, s')) ∧
    (∀ fuel r s', transfer24Bit P fuel self v s = some (r, s') → r = v &&& 0xFFFFFF) := by
  have key : ∀ d t, d < 256 →
      ∃ n, P.delay t.hw.dev (d % 256) = some n ∧ ∀ m, (exchanged P d m t).1 = d := by
    intro d t hlt
    obtain ⟨fuel, t', h⟩ := hecho d t hlt
    obtain ⟨n, hn, _, he⟩ := (transferByte_some_iff _ _ _ _ _ _).1 h
    refine ⟨n, hn, fun m => ?_⟩
    have : (exchanged P d n t).1 = d := by rw [← he]
    simpa [exchanged_fst] using this
  have val : ∀ n1 n2 n3, (word24 P v n1 n2 n3 s).1 = v &&& 0xFFFFFF := by
    intro n1 n2 n3
    simp only [word24]
    rw [(key ((v >>> 16) % 256) s (Nat.mod_lt _ (by decide))).choose_spec.2,
      (key ((v >>> 8) % 256) _ (Nat.mod_lt _ (by decide))).choose_spec.2,
      (key (v % 256) _ (Nat.mod_lt _ (by decide))).choose_spec.2, split24]
  constructor
  · obtain ⟨n1, hn1, _⟩ := key ((v >>> 16) % 256) s (Nat.mod_lt _ (by decide))
    obtain ⟨n2, hn2, _⟩ := key ((v >>> 8) % 256) (exchanged P ((v >>> 16) % 256) n1 s).2
      (Nat.mod_lt _ (by decide))
    obtain ⟨n3, hn3, _⟩ := key (v % 256)
      (exchanged P ((v >>> 8) % 256) n2 (exchanged P ((v >>> 16) % 256) n1 s).2).2
      (Nat.mod_lt _ (by decide))
    refine ⟨n1 + n2 + n3 + 1, (word24 P v n1 n2 n3 s).2, ?_⟩
    rw [← val n1 n2 n3]
    refine (transfer24Bit_some_iff P _ self v s _).2 ⟨n1, n2, n3, ⟨?_, ?_, ?_⟩, ?_, ?_, ?_, rfl⟩
    · simpa using hn1
    · simpa using hn2
    · simpa using hn3
    · omega
    · omega
    · omega
  · intro fuel r s' h
    obtain ⟨n1, n2, n3, _, _, _, _, he⟩ := (transfer24Bit_some_iff P fuel self v s _).1 h
    have := congrArg Prod.fst he
    simpa [val] using this

/-- C2 at concrete inputs: an echoing peripheral that needs one idle poll per byte. -/
theorem transfer24Bit_echo_witness :
    (∃ fuel s', transfer24Bit (stub id 1) fuel (.new 10) 0xAB123456 reset
        = some (0x123456, s')) ∧
    (∀ fuel r s', transfer24Bit (stub id 1) fuel (.new 10) 0xAB123456 reset = some (r, s') →
        r = 0x123456) :=
  transfer24Bit_echo (stub id 1) (.new 10) 0xAB123456 reset
    (fun d t hd => ⟨2, (exchanged (stub id 1) d 1 t).2, by
      rw [transferByte_of_delay (stub id 1) 2 _ d 1 t rfl (by decide)]
      exact congrArg some (Prod.ext (by simp [exchanged_fst, stub, Nat.mod_eq_of_lt hd]) rfl)⟩)

/-- C3: if the first, second and third byte exchange of `transfer24Bit(v)` return
`r1`, `r2`, `r3`, the call returns `(r1 << 16) | (r2 << 8) | r3` (with the state
the third exchange leaves), and that value is below `2^24`. -/
theorem transfer24Bit_reassembly (P : Peripheral σ) (fuel : Nat) (self : HI_SPI_24_BIT)
    (v r1 r2 r3 : Nat) (s s1 s2 s3 : Sys σ)
    (h1 : transferByte P fuel self ((v >>> 16) % 256) s = some (r1, s1))
    (h2 : transferByte P fuel self ((v >>> 8) % 256) s1 = some (r2, s2))
    (h3 : transferByte P fuel self (v % 256) s2 = some (r3, s3)) :
    transfer24Bit P fuel self v s = some ((r1 <<< 16) ||| (r2 <<< 8) ||| r3, s3) ∧
    (r1 <<< 16) ||| (r2 <<< 8) ||| r3 < 2 ^ 24 := by
  have byte : ∀ d t r t', transferByte P fuel self d t = some (r, t') → r < 256 := by
    intro d t r t' h
    obtain ⟨n, _, _, he⟩ := (transferByte_some_iff _ _ _ _ _ _).1 h
    have := congrArg Prod.fst he
    simp only at this
    rw [this]; exact exchanged_fst_lt _ _ _ _
  have b1 := byte _ _ _ _ h1
  have b2 := byte _ _ _ _ h2
  have b3 := byte _ _ _ _ h3
  constructor
  · unfold transfer24Bit
    simp only [h1, h2, h3]
    rw [assemble_eq r1 r2 r3 b1 b2 b3]
  · rw [or_bytes r1 r2 r3 b2 b3]; omega

/-- C3 at concrete inputs: a peripheral answering each byte `b` with `b+1` turns `0x123456` into `0x133557`. -/
theorem transfer24Bit_reassembly_witness :
    transfer24Bit (stub (fun b => b + 1) 0) 1 (.new 10) 0x123456 reset
      = some (0x133557, (word24 (stub (fun b => b + 1) 0) 0x123456 0 0 0 reset).2) ∧
    0x133557 < 2 ^ 24 :=
  transfer24Bit_reassembly (stub (fun b => b + 1) 0) 1 (.new 10) 0x123456 0x13 0x35 0x57 reset
    (exchanged (stub (fun b => b + 1) 0) 0x12 0 reset).2
    (exchanged (stub (fun b => b + 1) 0) 0x34 0
      (exchanged (stub (fun b => b + 1) 0) 0x12 0 reset).2).2
    (word24 (stub (fun b => b + 1) 0) 0x123456 0 0 0 reset).2 rfl rfl rfl

/-- C4: for every loop bound, input and starting state, `transmit24Bit(v)` has the
outcome of `transfer24Bit(v)` with the received value dropped: it returns exactly
when `transfer24Bit(v)` does, with the same final hardware state and the same log
of accesses (hence the same outgoing bytes). -/
theorem transmit24Bit_eq_transfer24Bit (P : Peripheral σ) (fuel : Nat) (self : HI_SPI_24_BIT)
    (v : Nat) (s : Sys σ) :
    transmit24Bit P fuel self v s = (transfer24Bit P fuel self v s).map Prod.snd := by
  unfold transmit24Bit transfer24Bit
  cases transferByte P fuel self ((v >>> 16) % 256) s with
  | none => rfl
  | some p1 =>
    obtain ⟨r1, s1⟩ := p1
    simp only
    cases transferByte P fuel self ((v >>> 8) % 256) s1 with
    | none => rfl
    | some p2 =>
      obtain ⟨r2, s2⟩ := p2
      simp only
      cases transferByte P fuel self (v % 256) s2 with
      | none => rfl
      | some p3 => rfl

/-- C5: after `begin(mode, clockDiv)` the control register's CPOL (bit 3) and CPHA
(bit 2) bits equal those of `mode`, its rate field (bits 1..0) equals
`clockDiv & 0x03`, and the status register's SPI2X bit is set iff
`clockDiv & 0x04` is nonzero; `SPI_MODE_0..3` give (CPOL, CPHA) = (0,0), (0,1),
(1,0), (1,1). -/
theorem begin_field_mapping (self : HI_SPI_24_BIT) (mode clockDiv : Nat) (s : Sys σ) :
    Nat.testBit (begin self mode clockDiv s).hw.SPCR CPOL = Nat.testBit mode CPOL ∧
    Nat.testBit (begin self mode clockDiv s).hw.SPCR CPHA = Nat.testBit mode CPHA ∧
    (begin self mode clockDiv s).hw.SPCR &&& 0x03 = clockDiv &&& 0x03 ∧
    (Nat.testBit (begin self mode clockDiv s).hw.SPSR SPI2X = true ↔ clockDiv &&& 0x04 ≠ 0) ∧
    clockSetting (begin self SPI_MODE_0 clockDiv s) = (false, false) ∧
    clockSetting (begin self SPI_MODE_1 clockDiv s) = (false, true) ∧
    clockSetting (begin self SPI_MODE_2 clockDiv s) = (true, false) ∧
    clockSetting (begin self SPI_MODE_3 clockDiv s) = (true, true) := by
  have cw : ∀ m, (begin self m clockDiv s).hw.SPCR = controlWord (m % 16) (clockDiv % 4) := by
    intro m; rw [begin_hw, ← controlWord_low]; exact controlWord_mod _ _
  have bits : ∀ m, Nat.testBit (controlWord (m % 16) (clockDiv % 4)) CPOL = Nat.testBit m CPOL ∧
      Nat.testBit (controlWord (m % 16) (clockDiv % 4)) CPHA = Nat.testBit m CPHA ∧
      controlWord (m % 16) (clockDiv % 4) &&& 0x03 = clockDiv % 4 := by
    intro m
    obtain ⟨h1, h2, h3⟩ := controlWord_bits (m % 16) (Nat.mod_lt _ (by decide))
      (clockDiv % 4) (Nat.mod_lt _ (by decide))
    have t1 : Nat.testBit (m % 16) CPOL = Nat.testBit m CPOL := by
      have := Nat.testBit_mod_two_pow m 4 CPOL
      simpa [CPOL] using this
    have t2 : Nat.testBit (m % 16) CPHA = Nat.testBit m CPHA := by
      have := Nat.testBit_mod_two_pow m 4 CPHA
      simpa [CPHA] using this
    exact ⟨h1.trans t1, h2.trans t2, h3⟩
  have h3 : clockDiv &&& 0x03 = clockDiv % 4 := Nat.and_pow_two_sub_one_eq_mod clockDiv 2
  have tbl : ∀ m, clockSetting (begin self m clockDiv s) = (Nat.testBit m CPOL, Nat.testBit m CPHA) := by
    intro m
    simp only [clockSetting, cw, (bits m).1, (bits m).2.1]
  refine ⟨?_, ?_, ?_, ?_, tbl _, tbl _, tbl _, tbl _⟩
  · rw [cw]; exact (bits mode).1
  · rw [cw]; exact (bits mode).2.1
  · rw [cw, h3]; exact (bits mode).2.2
  · obtain ⟨hs, hc⟩ := statusWord_bit (s.hw.SPSR % 256) (Nat.mod_lt _ (by decide))
    rw [begin_hw]
    show Nat.testBit (statusWord clockDiv (s.hw.SPSR % 256) % 256) SPI2X = true ↔ _
    unfold statusWord
    by_cases h : clockDiv &&& 0x04 ≠ 0
    · rw [if_pos h]
      exact ⟨fun _ => h, fun _ => hs⟩
    · rw [if_neg h, hc]
      exact ⟨fun ht => Bool.noConfusion ht, fun ht => absurd ht h⟩

/-- C6, as stated, fails: with the raw mode value 3 the polarity bit after `begin` is
0, not `(3 >> 1) & 1 = 1` (and the phase bit is 0, not `3 & 1 = 1`). -/
theorem begin_raw_mode_counterexample :
    ¬ (((begin (.new 10) 3 0x01 reset).hw.SPCR >>> CPOL) &&& 1 = (3 >>> 1) &&& 1 ∧
       ((begin (.new 10) 3 0x01 reset).hw.SPCR >>> CPHA) &&& 1 = 3 &&& 1) := by
  decide

theorem controlWord_mode_index : ∀ k, k < 4 → ∀ c, c < 4 →
    (controlWord ((k <<< 2) % 16) c >>> CPOL) &&& 1 = (k >>> 1) &&& 1 ∧
    (controlWord ((k <<< 2) % 16) c >>> CPHA) &&& 1 = k &&& 1 ∧
    k <<< 2 ∈ [SPI_MODE_0, SPI_MODE_1, SPI_MODE_2, SPI_MODE_3] := by
  decide

theorem controlWord_mode_distinct : ∀ k, k < 4 → ∀ c, c < 4 →
    ∀ k', k' < 4 → ∀ c', c' < 4 →
      (Nat.testBit (controlWord ((k' <<< 2) % 16) c') CPOL,
        Nat.testBit (controlWord ((k' <<< 2) % 16) c') CPHA) =
      (Nat.testBit (controlWord ((k <<< 2) % 16) c) CPOL,
        Nat.testBit (controlWord ((k <<< 2) % 16) c) CPHA) → k' = k := by
  decide

/-- C6, amended: the mode argument ranges over the four header values
`SPI_MODE_0..SPI_MODE_3` = `k << 2` for `k` in 0..3; after `begin(k << 2, clockDiv)`
the polarity bit equals `(k >> 1) & 1` and the phase bit equals `k & 1`, so the
four mode values yield four pairwise distinct (polarity, phase) settings. -/
theorem begin_mode_selects (self : HI_SPI_24_BIT) (k clockDiv : Nat) (s : Sys σ) (hk : k < 4) :
    k <<< 2 ∈ [SPI_MODE_0, SPI_MODE_1, SPI_MODE_2, SPI_MODE_3] ∧
    ((begin self (k <<< 2) clockDiv s).hw.SPCR >>> CPOL) &&& 1 = (k >>> 1) &&& 1 ∧
    ((begin self (k <<< 2) clockDiv s).hw.SPCR >>> CPHA) &&& 1 = k &&& 1 ∧
    ∀ k', k' < 4 → k' ≠ k → ∀ (self' : HI_SPI_24_BIT) (clockDiv' : Nat) (s' : Sys σ),
      clockSetting (begin self' (k' <<< 2) clockDiv' s') ≠
        clockSetting (begin self (k <<< 2) clockDiv s) := by
  have cw : ∀ (i : HI_SPI_24_BIT) m c (t : Sys σ),
      (begin i m c t).hw.SPCR = controlWord (m % 16) (c % 4) := by
    intro i m c t; rw [begin_hw, ← controlWord_low]; exact controlWord_mod _ _
  obtain ⟨h1, h2, h3⟩ := controlWord_mode_index k hk (clockDiv % 4) (Nat.mod_lt _ (by decide))
  have h4 := controlWord_mode_distinct k hk (clockDiv % 4) (Nat.mod_lt _ (by decide))
  refine ⟨h3, ?_, ?_, ?_⟩
  · rw [cw]; exact h1
  · rw [cw]; exact h2
  · intro k' hk' hne self' clockDiv' s'
    simp only [clockSetting, cw]
    exact fun he => hne (h4 k' hk' (clockDiv' % 4) (Nat.mod_lt _ (by decide)) he)

/-- C6 amended, at `k = 3` (`SPI_MODE_3`) with the default divider. -/
theorem begin_mode_selects_witness :
    ((begin (.new 10) SPI_MODE_3 0x01 reset).hw.SPCR >>> CPOL) &&& 1 = 1 ∧
    ((begin (.new 10) SPI_MODE_3 0x01 reset).hw.SPCR >>> CPHA) &&& 1 = 1 :=
  let h := begin_mode_selects (.new 10) 3 0x01 reset (by decide)
  ⟨h.2.1, h.2.2.1⟩

/-- C7: for an instance constructed with chip-select line `p`, line `p` is low after
`beginTransaction()` and high after `endTransaction()`, from every state. -/
theorem transaction_levels (p : Nat) (s : Sys σ) :
    (beginTransaction (.new p) s).hw.pinLevel p = LOW ∧
    (endTransaction (.new p) s).hw.pinLevel p = HIGH := by
  simp [beginTransaction, endTransaction, digitalWrite, emit, HI_SPI_24_BIT.new]

/-- C8: for an instance constructed with chip-select line `p`, after
`begin(mode, clockDiv)` line `p` is an output and its level is high. -/
theorem begin_deasserts (p mode clockDiv : Nat) (s : Sys σ) :
    (begin (.new p) mode clockDiv s).hw.pinDir p = OUTPUT ∧
    (begin (.new p) mode clockDiv s).hw.pinLevel p = HIGH := by
  rw [begin_hw]
  simp [HI_SPI_24_BIT.new]

/-- C9: for a peripheral that answers every byte `b` with the byte `f b` and
completes every exchange, the sequence `begin(SPI_MODE_0, 0x01); beginTransaction();
r = transfer24Bit(v); endTransaction()` returns for every large enough loop bound;
its log is the starting log, then accesses `pre` without any data-register write,
then the chip-select line driven low, then accesses `mid` whose data-register
writes are `(v>>16)&0xFF`, `(v>>8)&0xFF`, `v&0xFF` in order and which never drive
the chip-select line, then the chip-select line driven high; `r` is
`(f b2 << 16) | (f b1 << 8) | f b0` for those bytes, and the line is high at the end. -/
theorem scenario_trace (P : Peripheral σ) (f : Nat → Nat) (self : HI_SPI_24_BIT) (v : Nat)
    (s : Sys σ) (hb : ∀ b, f b < 256) (hf : ∀ x d, P.respond x d = f d)
    (hc : ∀ x d, ∃ n, P.delay x d = some n) :
    ∃ fuel0, ∀ fuel, fuel0 ≤ fuel → ∃ s' pre mid,
      scenario P fuel self v s =
        some ((f ((v >>> 16) &&& 0xFF) <<< 16) ||| (f ((v >>> 8) &&& 0xFF) <<< 8)
          ||| f (v &&& 0xFF), s') ∧
      s'.log = s.log ++ pre ++ [Event.digitalWrite self._csPin LOW] ++ mid
        ++ [Event.digitalWrite self._csPin HIGH] ∧
      dataWrites pre = [] ∧
      dataWrites mid = [(v >>> 16) &&& 0xFF, (v >>> 8) &&& 0xFF, v &&& 0xFF] ∧
      levelWrites self._csPin mid = [] ∧
      s'.hw.pinLevel self._csPin = HIGH := by
  obtain ⟨n1, hn1⟩ := hc (beginTransaction self (begin self SPI_MODE_0 0x01 s)).hw.dev
    ((v >>> 16) % 256)
  obtain ⟨n2, hn2⟩ := hc (exchanged P ((v >>> 16) % 256) n1
    (beginTransaction self (begin self SPI_MODE_0 0x01 s))).2.hw.dev ((v >>> 8) % 256)
  obtain ⟨n3, hn3⟩ := hc (exchanged P ((v >>> 8) % 256) n2 (exchanged P ((v >>> 16) % 256) n1
    (beginTransaction self (begin self SPI_MODE_0 0x01 s))).2).2.hw.dev (v % 256)
  refine ⟨n1 + n2 + n3 + 1, fun fuel hfuel => ?_⟩
  have ht : transfer24Bit P fuel self v (beginTransaction self (begin self SPI_MODE_0 0x01 s))
      = some (word24 P v n1 n2 n3 (beginTransaction self (begin self SPI_MODE_0 0x01 s))) :=
    (transfer24Bit_some_iff P fuel self v _ _).2
      ⟨n1, n2, n3, ⟨hn1, hn2, hn3⟩, by omega, by omega, by omega, rfl⟩
  obtain ⟨st1, st2, st3, r1, r2, r3, hl⟩ :=
    word24_log P v n1 n2 n3 (beginTransaction self (begin self SPI_MODE_0 0x01 s))
  have hval : (word24 P v n1 n2 n3 (beginTransaction self (begin self SPI_MODE_0 0x01 s))).1 =
      (f ((v >>> 16) &&& 0xFF) <<< 16) ||| (f ((v >>> 8) &&& 0xFF) <<< 8) ||| f (v &&& 0xFF) := by
    simp only [word24, exchanged_fst, hf, and_FF, Nat.mod_mod, Nat.mod_eq_of_lt (hb _)]
  refine ⟨endTransaction self
      (word24 P v n1 n2 n3 (beginTransaction self (begin self SPI_MODE_0 0x01 s))).2,
    beginTrace self SPI_MODE_0 0x01 s.hw,
    exchangeTrace ((v >>> 16) % 256) n1 st1 r1 ++ exchangeTrace ((v >>> 8) % 256) n2 st2 r2
      ++ exchangeTrace (v % 256) n3 st3 r3, ?_, ?_, rfl, ?_, ?_, ?_⟩
  · simp only [scenario, ht, hval]
  · have hl0 : (beginTransaction self (begin self SPI_MODE_0 0x01 s)).log =
        s.log ++ beginTrace self SPI_MODE_0 0x01 s.hw ++ [Event.digitalWrite self._csPin LOW] := by
      simp only [beginTransaction, digitalWrite, emit, begin_log]
    show (word24 P v n1 n2 n3 (beginTransaction self (begin self SPI_MODE_0 0x01 s))).2.log
      ++ [Event.digitalWrite self._csPin HIGH] = _
    rw [hl, hl0]
  · simp only [dataWrites_append, dataWrites_exchangeTrace, and_FF, Nat.mod_mod]
    rfl
  · simp only [levelWrites_append, levelWrites_exchangeTrace]
    rfl
  · simp [endTransaction, digitalWrite, emit]

/-- C9 at concrete inputs: `v = 0x123456` with `f b = b + 1` (as a byte) gives
outgoing bytes `[0x12, 0x34, 0x56]` and `r = 0x133557`. -/
theorem scenario_trace_witness :
    ∃ fuel0, ∀ fuel, fuel0 ≤ fuel → ∃ s' pre mid,
      scenario (stub (fun b => (b + 1) % 256) 2) fuel (.new 10) 0x123456 reset
        = some (0x133557, s') ∧
      s'.log = reset.log ++ pre ++ [Event.digitalWrite 10 LOW] ++ mid
        ++ [Event.digitalWrite 10 HIGH] ∧
      dataWrites pre = [] ∧
      dataWrites mid = [0x12, 0x34, 0x56] ∧
      levelWrites 10 mid = [] ∧
      s'.hw.pinLevel 10 = HIGH :=
  scenario_trace (stub (fun b => (b + 1) % 256) 2) (fun b => (b + 1) % 256) (.new 10) 0x123456
    reset (fun _ => Nat.mod_lt _ (by decide)) (fun _ _ => rfl) (fun _ _ => ⟨2, rfl⟩)

/-- C10: if `v` and `w` agree on their low 24 bits, then from the same state, with the
same peripheral and loop bound, `transfer24Bit(v)` and `transfer24Bit(w)` send the
same three bytes and have the same outcome (returned value, final state and log),
and so have `transmit24Bit(v)` and `transmit24Bit(w)`. -/
theorem top_byte_ignored (P : Peripheral σ) (fuel : Nat) (self : HI_SPI_24_BIT) (v w : Nat)
    (s : Sys σ) (h : v &&& 0xFFFFFF = w &&& 0xFFFFFF) :
    [(v >>> 16) % 256, (v >>> 8) % 256, v % 256] = [(w >>> 16) % 256, (w >>> 8) % 256, w % 256] ∧
    transfer24Bit P fuel self v s = transfer24Bit P fuel self w s ∧
    transmit24Bit P fuel self v s = transmit24Bit P fuel self w s := by
  rw [and_FFFFFF, and_FFFFFF] at h
  have e2 : (v >>> 16) % 256 = (w >>> 16) % 256 := by
    rw [Nat.shiftRight_eq_div_pow, Nat.shiftRight_eq_div_pow]; omega
  have e1 : (v >>> 8) % 256 = (w >>> 8) % 256 := by
    rw [Nat.shiftRight_eq_div_pow, Nat.shiftRight_eq_div_pow]; omega
  have e0 : v % 256 = w % 256 := by omega
  refine ⟨by rw [e2, e1, e0], ?_, ?_⟩
  · unfold transfer24Bit; rw [e2, e1, e0]
  · unfold transmit24Bit; rw [e2, e1, e0]

/-- C10 at concrete inputs: `0xAB123456` and `0x123456` differ only in the top byte. -/
theorem top_byte_ignored_witness :
    [(0xAB123456 >>> 16) % 256, (0xAB123456 >>> 8) % 256, 0xAB123456 % 256] = [0x12, 0x34, 0x56] ∧
    transfer24Bit (stub (fun b => b + 1) 1) 2 (.new 10) 0xAB123456 reset
      = transfer24Bit (stub (fun b => b + 1) 1) 2 (.new 10) 0x123456 reset ∧
    transmit24Bit (stub (fun b => b + 1) 1) 2 (.new 10) 0xAB123456 reset
      = transmit24Bit (stub (fun b => b + 1) 1) 2 (.new 10) 0x123456 reset :=
  top_byte_ignored (stub (fun b => b + 1) 1) 2 (.new 10) 0xAB123456 0x123456 reset (by decide)

/-! ## Further helper lemmas -/

theorem begin_SPCR (self : HI_SPI_24_BIT) (mode clockDiv : Nat) (s : Sys σ) :
    (begin self mode clockDiv s).hw.SPCR = controlWord (mode % 16) (clockDiv % 4) := by
  rw [begin_hw, ← controlWord_low]; exact controlWord_mod _ _

theorem begin_SPSR (self : HI_SPI_24_BIT) (mode clockDiv : Nat) (s : Sys σ) :
    (begin self mode clockDiv s).hw.SPSR = statusWord clockDiv (s.hw.SPSR % 256) % 256 := by
  rw [begin_hw]

theorem begin_SPI2X (self : HI_SPI_24_BIT) (mode clockDiv : Nat) (s : Sys σ) :
    Nat.testBit (begin self mode clockDiv s).hw.SPSR SPI2X = decide (clockDiv &&& 0x04 ≠ 0) := by
  obtain ⟨hs, hc⟩ := statusWord_bit (s.hw.SPSR % 256) (Nat.mod_lt _ (by decide))
  rw [begin_SPSR]
  unfold statusWord
  by_cases h : clockDiv &&& 0x04 ≠ 0
  · rw [if_pos h, hs]; exact (decide_eq_true h).symm
  · rw [if_neg h, hc]; exact (decide_eq_false h).symm

theorem ratio_table : ∀ c, c < 8 →
    decide (c &&& 0x04 ≠ 0) = Nat.testBit c 2 ∧
    clockRatio (decide (c &&& 0x04 ≠ 0)) (c % 4) = documentedRatio c := by
  decide

theorem ratio_halved : ∀ c, c < 4 →
    2 * clockRatio (decide ((c ||| 0x04) &&& 0x04 ≠ 0)) ((c ||| 0x04) % 4) =
      clockRatio (decide (c &&& 0x04 ≠ 0)) (c % 4) := by
  decide

theorem selectedRatio_begin (self : HI_SPI_24_BIT) (mode clockDiv : Nat) (s : Sys σ) :
    selectedRatio (begin self mode clockDiv s) =
      clockRatio (decide (clockDiv &&& 0x04 ≠ 0)) (clockDiv % 4) := by
  unfold selectedRatio
  rw [begin_SPI2X, begin_SPCR,
    (controlWord_bits (mode % 16) (Nat.mod_lt _ (by decide)) (clockDiv % 4)
      (Nat.mod_lt _ (by decide))).2.2]

theorem controlWord_rate_bits : ∀ a, a < 16 → ∀ c, c < 8 →
    Nat.testBit (controlWord a (c % 4)) 1 = Nat.testBit c 1 ∧
    Nat.testBit (controlWord a (c % 4)) 0 = Nat.testBit c 0 := by
  decide

set_option maxRecDepth 100000 in
theorem ddrb_idem : ∀ y, y < 256 →
    ((((y ||| ((1 <<< DDB3) ||| (1 <<< DDB5) ||| (1 <<< DDB2))) % 256) % 256)
        ||| ((1 <<< DDB3) ||| (1 <<< DDB5) ||| (1 <<< DDB2))) % 256 =
      (y ||| ((1 <<< DDB3) ||| (1 <<< DDB5) ||| (1 <<< DDB2))) % 256 := by
  decide

set_option maxRecDepth 100000 in
theorem status_set_absorbs : ∀ y, y < 256 →
    ((((y ||| (1 <<< SPI2X)) % 256) % 256) ||| (1 <<< SPI2X)) % 256 = (y ||| (1 <<< SPI2X)) % 256 ∧
    ((((y &&& (0xFFFF ^^^ (1 <<< SPI2X))) % 256) % 256) ||| (1 <<< SPI2X)) % 256
      = (y ||| (1 <<< SPI2X)) % 256 := by
  decide

set_option maxRecDepth 100000 in
theorem status_clear_absorbs : ∀ y, y < 256 →
    ((((y ||| (1 <<< SPI2X)) % 256) % 256) &&& (0xFFFF ^^^ (1 <<< SPI2X))) % 256
      = (y &&& (0xFFFF ^^^ (1 <<< SPI2X))) % 256 ∧
    ((((y &&& (0xFFFF ^^^ (1 <<< SPI2X))) % 256) % 256) &&& (0xFFFF ^^^ (1 <<< SPI2X))) % 256
      = (y &&& (0xFFFF ^^^ (1 <<< SPI2X))) % 256 := by
  decide

/-- The status word of a second `begin` does not depend on the first one's divider. -/
theorem statusWord_absorbs (d1 d2 y : Nat) (hy : y < 256) :
    statusWord d2 ((statusWord d1 y % 256) % 256) % 256 = statusWord d2 y % 256 := by
  obtain ⟨s1, s2⟩ := status_set_absorbs y hy
  obtain ⟨c1, c2⟩ := status_clear_absorbs y hy
  unfold statusWord
  by_cases h1 : d1 &&& 0x04 ≠ 0 <;> by_cases h2 : d2 &&& 0x04 ≠ 0
  · rw [if_pos h1, if_pos h2, if_pos h2]; exact s1
  · rw [if_pos h1, if_neg h2, if_neg h2]; exact c1
  · rw [if_neg h1, if_pos h2, if_pos h2]; exact s2
  · rw [if_neg h1, if_neg h2, if_neg h2]; exact c2

theorem otherWrites_append (a b : List Event) :
    otherWrites (a ++ b) = otherWrites a ++ otherWrites b := by
  simp [otherWrites]

theorem otherWrites_exchangeTrace (d n st rx : Nat) :
    otherWrites (exchangeTrace d n st rx) = [] := by
  simp [exchangeTrace, otherWrites]

/-- An exchange leaves the lines, the control register and the port-direction register alone. -/
theorem exchanged_frame (P : Peripheral σ) (d n : Nat) (s : Sys σ) :
    (exchanged P d n s).2.hw.pinLevel = s.hw.pinLevel ∧
    (exchanged P d n s).2.hw.pinDir = s.hw.pinDir ∧
    (exchanged P d n s).2.hw.SPCR = s.hw.SPCR ∧
    (exchanged P d n s).2.hw.DDRB = s.hw.DDRB :=
  ⟨rfl, rfl, rfl, rfl⟩

theorem word24_frame (P : Peripheral σ) (v n1 n2 n3 : Nat) (s : Sys σ) :
    (word24 P v n1 n2 n3 s).2.hw.pinLevel = s.hw.pinLevel ∧
    (word24 P v n1 n2 n3 s).2.hw.pinDir = s.hw.pinDir ∧
    (word24 P v n1 n2 n3 s).2.hw.SPCR = s.hw.SPCR ∧
    (word24 P v n1 n2 n3 s).2.hw.DDRB = s.hw.DDRB :=
  ⟨rfl, rfl, rfl, rfl⟩

theorem transmit24Bit_of_transfer24Bit (P : Peripheral σ) (fuel : Nat) (self : HI_SPI_24_BIT)
    (v : Nat) (s : Sys σ) (r : Nat × Sys σ) (h : transfer24Bit P fuel self v s = some r) :
    transmit24Bit P fuel self v s = some r.2 := by
  unfold transfer24Bit at h
  unfold transmit24Bit
  cases h1 : transferByte P fuel self ((v >>> 16) % 256) s with
  | none => simp [h1] at h
  | some p1 =>
    obtain ⟨r1, s1⟩ := p1
    simp only [h1] at h ⊢
    cases h2 : transferByte P fuel self ((v >>> 8) % 256) s1 with
    | none => simp [h2] at h
    | some p2 =>
      obtain ⟨r2, s2⟩ := p2
      simp only [h2] at h ⊢
      cases h3 : transferByte P fuel self (v % 256) s2 with
      | none => simp [h3] at h
      | some p3 =>
        obtain ⟨r3, s3⟩ := p3
        simp only [h3] at h ⊢
        rw [← Option.some.inj h]

theorem controlWord_exact : ∀ a, a < 16 → ∀ c, c < 4 →
    controlWord a c = (1 <<< SPE) ||| (1 <<< MSTR) ||| (a &&& 0x0C) ||| (c &&& 0x03) ∧
    Nat.testBit (controlWord a c) SPE = true ∧ Nat.testBit (controlWord a c) MSTR = true ∧
    Nat.testBit (controlWord a c) 7 = false ∧ Nat.testBit (controlWord a c) 5 = false := by
  decide

/-- `begin` reads its arguments only through these four masks. -/
theorem begin_congr (self : HI_SPI_24_BIT) (m m' c c' : Nat) (s : Sys σ)
    (h8 : m' &&& (1 <<< CPOL) = m &&& (1 <<< CPOL))
    (h4 : m' &&& (1 <<< CPHA) = m &&& (1 <<< CPHA))
    (h3 : c' &&& 0x03 = c &&& 0x03) (hx : c' &&& 0x04 = c &&& 0x04) :
    begin self m' c' s = begin self m c s := by
  unfold begin
  simp only [h8, h4, h3, hx]

theorem and_of_and_eq (x y k m : Nat) (h : x &&& k = y &&& k) (hm : k &&& m = m) :
    x &&& m = y &&& m := by
  rw [← hm, ← Nat.and_assoc, ← Nat.and_assoc, h]

theorem testBit_2C (i : Nat) (h2 : i ≠ 2) (h3 : i ≠ 3) (h5 : i ≠ 5) :
    Nat.testBit 0x2C i = false := by
  by_cases hi : i < 6
  · interval_cases i <;> first | rfl | contradiction
  · apply Nat.testBit_lt_two_pow
    calc 0x2C < 2 ^ 6 := by decide
      _ ≤ 2 ^ i := Nat.pow_le_pow_right (by decide) (by omega)

theorem begin_DDRB (self : HI_SPI_24_BIT) (mode clockDiv : Nat) (s : Sys σ)
    (h : s.hw.DDRB < 256) : (begin self mode clockDiv s).hw.DDRB = s.hw.DDRB ||| 0x2C := by
  rw [begin_hw]
  show ((s.hw.DDRB % 256) ||| 0x2C) % 256 = s.hw.DDRB ||| 0x2C
  rw [Nat.mod_eq_of_lt h]
  exact Nat.mod_eq_of_lt (Nat.or_lt_two_pow (n := 8) h (by decide))

set_option maxRecDepth 100000 in
theorem status_values : ∀ x, x < 256 →
    (x ||| (1 <<< SPI2X)) % 256 = x ||| (1 <<< SPI2X) ∧
    (x &&& (0xFFFF ^^^ (1 <<< SPI2X))) % 256 = x &&& (0xFF ^^^ (1 <<< SPI2X)) := by
  decide

theorem testBit_or_one (x i : Nat) (hi : i ≠ 0) :
    Nat.testBit (x ||| 1) i = Nat.testBit x i := by
  have h1 : Nat.testBit 1 i = false := by
    cases hb : Nat.testBit 1 i with
    | false => rfl
    | true => exact absurd (Nat.testBit_one_eq_true_iff_self_eq_zero.1 hb) hi
  rw [Nat.testBit_or, h1, Bool.or_false]

theorem testBit_and_FE (x i : Nat) (hx : x < 256) (hi : i ≠ 0) :
    Nat.testBit (x &&& 0xFE) i = Nat.testBit x i := by
  rw [Nat.testBit_and]
  by_cases h8 : i < 8
  · have : Nat.testBit 0xFE i = true := by
      interval_cases i <;> first | rfl | contradiction
    rw [this, Bool.and_true]
  · have : Nat.testBit x i = false := by
      apply Nat.testBit_lt_two_pow
      calc x < 2 ^ 8 := hx
        _ ≤ 2 ^ i := Nat.pow_le_pow_right (by decide) (by omega)
    rw [this, Bool.false_and]

/-! ## Claims, continued -/

/-- C11: for `clockDiv` in 0..7 the triple (SPI2X, SPR1, SPR0) left by
`begin(mode, clockDiv)` equals the three bits of `clockDiv`, and under the engine's
rate table the selected clock ratio is the one the header documents (/4, /16, /64,
/128, /2, /8, /32, /64); the default `0x01` selects /16, and setting the top bit of
the divider halves the ratio selected by its low two bits. -/
theorem begin_clock_ratio (self : HI_SPI_24_BIT) (mode clockDiv : Nat) (s : Sys σ)
    (hd : clockDiv < 8) :
    Nat.testBit (begin self mode clockDiv s).hw.SPSR SPI2X = Nat.testBit clockDiv 2 ∧
    Nat.testBit (begin self mode clockDiv s).hw.SPCR 1 = Nat.testBit clockDiv 1 ∧
    Nat.testBit (begin self mode clockDiv s).hw.SPCR 0 = Nat.testBit clockDiv 0 ∧
    selectedRatio (begin self mode clockDiv s) = documentedRatio clockDiv ∧
    selectedRatio (begin self mode 0x01 s) = 16 ∧
    (clockDiv < 4 → 2 * selectedRatio (begin self mode (clockDiv ||| 0x04) s) =
      selectedRatio (begin self mode clockDiv s)) := by
  obtain ⟨t2, tr⟩ := ratio_table clockDiv hd
  obtain ⟨b1, b0⟩ := controlWord_rate_bits (mode % 16) (Nat.mod_lt _ (by decide)) clockDiv hd
  refine ⟨?_, ?_, ?_, ?_, ?_, ?_⟩
  · rw [begin_SPI2X]; exact t2
  · rw [begin_SPCR]; exact b1
  · rw [begin_SPCR]; exact b0
  · rw [selectedRatio_begin]; exact tr
  · rw [selectedRatio_begin]; rfl
  · intro h4
    rw [selectedRatio_begin, selectedRatio_begin]
    exact ratio_halved clockDiv h4

/-- C11 at `clockDiv = 0x05` (documented as F_CPU/8) from power-on. -/
theorem begin_clock_ratio_witness :
    selectedRatio (begin (.new 10) SPI_MODE_0 0x05 reset) = 8 ∧
    2 * selectedRatio (begin (.new 10) SPI_MODE_0 0x05 reset) =
      selectedRatio (begin (.new 10) SPI_MODE_0 0x01 reset) :=
  ⟨(begin_clock_ratio (.new 10) SPI_MODE_0 0x05 reset (by decide)).2.2.2.1,
   (begin_clock_ratio (.new 10) SPI_MODE_0 0x01 reset (by decide)).2.2.2.2.2 (by decide)⟩

/-- C12: configuration is idempotent and last-writer-wins on the hardware state:
for one instance and every starting state, `begin(m1, d1); begin(m2, d2)` leaves the
hardware state that `begin(m2, d2)` alone leaves; in particular `begin(m, d)` twice
leaves the state of `begin(m, d)` once. -/
theorem begin_last_writer_wins (self : HI_SPI_24_BIT) (m1 d1 m2 d2 : Nat) (s : Sys σ) :
    (begin self m2 d2 (begin self m1 d1 s)).hw = (begin self m2 d2 s).hw ∧
    (begin self m2 d2 (begin self m2 d2 s)).hw = (begin self m2 d2 s).hw := by
  have key : ∀ a b, (begin self m2 d2 (begin self a b s)).hw = (begin self m2 d2 s).hw := by
    intro a b
    rw [begin_hw self m2 d2 (begin self a b s), begin_hw self a b s, begin_hw self m2 d2 s]
    simp only [Function.update_idem, ddrb_idem _ (Nat.mod_lt s.hw.DDRB (by decide)),
      statusWord_absorbs b d2 _ (Nat.mod_lt s.hw.SPSR (by decide))]
  exact ⟨key m1 d1, key m2 d2⟩

/-- C13: `beginTransaction()` twice leaves the hardware state of one call; the line is
low after the first call and after the second, and the two calls only ever drive it
low; symmetrically for `endTransaction()` with the line high. -/
theorem transaction_idempotent (self : HI_SPI_24_BIT) (s : Sys σ) :
    ((beginTransaction self (beginTransaction self s)).hw = (beginTransaction self s).hw ∧
      (beginTransaction self s).hw.pinLevel self._csPin = LOW ∧
      (beginTransaction self (beginTransaction self s)).hw.pinLevel self._csPin = LOW ∧
      (beginTransaction self (beginTransaction self s)).log =
        s.log ++ [Event.digitalWrite self._csPin LOW, Event.digitalWrite self._csPin LOW]) ∧
    ((endTransaction self (endTransaction self s)).hw = (endTransaction self s).hw ∧
      (endTransaction self s).hw.pinLevel self._csPin = HIGH ∧
      (endTransaction self (endTransaction self s)).hw.pinLevel self._csPin = HIGH ∧
      (endTransaction self (endTransaction self s)).log =
        s.log ++ [Event.digitalWrite self._csPin HIGH, Event.digitalWrite self._csPin HIGH]) := by
  simp [beginTransaction, endTransaction, digitalWrite, emit]

/-- C14: whenever the three exchanges complete, `transfer24Bit(v)` and
`transmit24Bit(v)` return in a state where the level and direction of every digital
line (the chip-select line among them), the control register and the port-direction
register are as before the call, and the accesses they append to the log contain no
write of a digital line or of the port-direction, control or status register: the
only register written is the data register, three times. -/
theorem transfer_frame (P : Peripheral σ) (fuel : Nat) (self : HI_SPI_24_BIT)
    (v n1 n2 n3 : Nat) (s : Sys σ) (hd : delays P v n1 n2 n3 s)
    (h1 : n1 < fuel) (h2 : n2 < fuel) (h3 : n3 < fuel) :
    ∃ r s' tr, transfer24Bit P fuel self v s = some (r, s') ∧
      transmit24Bit P fuel self v s = some s' ∧
      s'.hw.pinLevel = s.hw.pinLevel ∧ s'.hw.pinDir = s.hw.pinDir ∧
      s'.hw.SPCR = s.hw.SPCR ∧ s'.hw.DDRB = s.hw.DDRB ∧
      s'.log = s.log ++ tr ∧ otherWrites tr = [] ∧ (dataWrites tr).length = 3 := by
  obtain ⟨st1, st2, st3, r1, r2, r3, hl⟩ := word24_log P v n1 n2 n3 s
  obtain ⟨f1, f2, f3, f4⟩ := word24_frame P v n1 n2 n3 s
  have ht : transfer24Bit P fuel self v s = some (word24 P v n1 n2 n3 s) :=
    (transfer24Bit_some_iff P fuel self v s _).2 ⟨n1, n2, n3, hd, h1, h2, h3, rfl⟩
  refine ⟨(word24 P v n1 n2 n3 s).1, (word24 P v n1 n2 n3 s).2, _, ht,
    transmit24Bit_of_transfer24Bit P fuel self v s _ ht, f1, f2, f3, f4, hl, ?_, ?_⟩
  · simp only [otherWrites_append, otherWrites_exchangeTrace, List.append_nil]
  · simp only [dataWrites_append, dataWrites_exchangeTrace]
    rfl

/-- C14 at concrete inputs: chip-select asserted on line 10, then a word transferred. -/
theorem transfer_frame_witness :
    ∃ r s' tr, transfer24Bit (stub (fun b => b + 1) 2) 3 (.new 10) 0x123456
        (beginTransaction (.new 10) (begin (.new 10) SPI_MODE_0 0x01 reset)) = some (r, s') ∧
      transmit24Bit (stub (fun b => b + 1) 2) 3 (.new 10) 0x123456
        (beginTransaction (.new 10) (begin (.new 10) SPI_MODE_0 0x01 reset)) = some s' ∧
      s'.hw.pinLevel = (beginTransaction (.new 10) (begin (.new 10) SPI_MODE_0 0x01 reset)).hw.pinLevel ∧
      s'.hw.pinDir = (beginTransaction (.new 10) (begin (.new 10) SPI_MODE_0 0x01 reset)).hw.pinDir ∧
      s'.hw.SPCR = 0x51 ∧ s'.hw.DDRB = 0x2C ∧
      s'.log = (beginTransaction (.new 10) (begin (.new 10) SPI_MODE_0 0x01 reset)).log ++ tr ∧
      otherWrites tr = [] ∧ (dataWrites tr).length = 3 :=
  transfer_frame (stub (fun b => b + 1) 2) 3 (.new 10) 0x123456 2 2 2
    (beginTransaction (.new 10) (begin (.new 10) SPI_MODE_0 0x01 reset))
    ⟨rfl, rfl, rfl⟩ (by decide) (by decide) (by decide)

/-- C15: `begin(mode, clockDiv)` never rejects its arguments and leaves the control
register at exactly `(1<<SPE) | (1<<MSTR) | (mode & 0x0C) | (clockDiv & 0x03)`,
whatever it held before: the enable and master bits are set, bits 7 and 5 are
clear; and arguments that agree on `mode & 0x0C` and on `clockDiv & 0x07` give the
same outcome (hardware state and log). -/
theorem begin_control_word (self : HI_SPI_24_BIT) (mode clockDiv : Nat) (s : Sys σ) :
    (begin self mode clockDiv s).hw.SPCR =
      (1 <<< SPE) ||| (1 <<< MSTR) ||| (mode &&& 0x0C) ||| (clockDiv &&& 0x03) ∧
    Nat.testBit (begin self mode clockDiv s).hw.SPCR SPE = true ∧
    Nat.testBit (begin self mode clockDiv s).hw.SPCR MSTR = true ∧
    Nat.testBit (begin self mode clockDiv s).hw.SPCR 7 = false ∧
    Nat.testBit (begin self mode clockDiv s).hw.SPCR 5 = false ∧
    (∀ mode' clockDiv', mode' &&& 0x0C = mode &&& 0x0C → clockDiv' &&& 0x07 = clockDiv &&& 0x07 →
      begin self mode' clockDiv' s = begin self mode clockDiv s) := by
  obtain ⟨e, b6, b4, b7, b5⟩ := controlWord_exact (mode % 16) (Nat.mod_lt _ (by decide))
    (clockDiv % 4) (Nat.mod_lt _ (by decide))
  have hm : (mode % 16) &&& 0x0C = mode &&& 0x0C := (and_low4 mode 0x0C (by decide)).symm
  have hc : (clockDiv % 4) &&& 0x03 = clockDiv &&& 0x03 := by
    have h1 : clockDiv &&& 0x03 = clockDiv % 4 := Nat.and_pow_two_sub_one_eq_mod clockDiv 2
    have h2 : (clockDiv % 4) &&& 0x03 = clockDiv % 4 % 4 := Nat.and_pow_two_sub_one_eq_mod _ 2
    rw [h1, h2, Nat.mod_mod]
  rw [begin_SPCR]
  refine ⟨by rw [e, hm, hc], b6, b4, b7, b5, ?_⟩
  intro mode' clockDiv' h1 h2
  exact begin_congr self mode mode' clockDiv clockDiv' s
    (and_of_and_eq _ _ 0x0C _ h1 (by decide)) (and_of_and_eq _ _ 0x0C _ h1 (by decide))
    (and_of_and_eq _ _ 0x07 _ h2 (by decide)) (and_of_and_eq _ _ 0x07 _ h2 (by decide))

/-- C15 at out-of-range arguments: `begin(0xFF, 0xFD)` behaves as `begin(0x0C, 0x05)`. -/
theorem begin_control_word_witness :
    (begin (.new 10) 0xFF 0xFD reset).hw.SPCR = 0x5D ∧
    begin (.new 10) 0xFF 0xFD reset = begin (.new 10) 0x0C 0x05 reset :=
  ⟨((begin_control_word (.new 10) 0xFF 0xFD reset).1 : _),
   (begin_control_word (.new 10) 0x0C 0x05 reset).2.2.2.2.2 0xFF 0xFD (by decide) (by decide)⟩

/-- C16: for every chip-select line, mode and divider, `begin` leaves the
port-direction register at `DDRB_before | 0x2C`: the bits of PB3 (data out), PB5
(clock) and PB2 (the engine's own slave select) are set, and bit 4 (PB4, data in)
and every other bit are as they were; the value written is in the log. -/
theorem begin_port_direction (self : HI_SPI_24_BIT) (mode clockDiv : Nat) (s : Sys σ)
    (h : s.hw.DDRB < 256) :
    (begin self mode clockDiv s).hw.DDRB = s.hw.DDRB ||| 0x2C ∧
    Nat.testBit (begin self mode clockDiv s).hw.DDRB DDB3 = true ∧
    Nat.testBit (begin self mode clockDiv s).hw.DDRB DDB5 = true ∧
    Nat.testBit (begin self mode clockDiv s).hw.DDRB DDB2 = true ∧
    Nat.testBit (begin self mode clockDiv s).hw.DDRB 4 = Nat.testBit s.hw.DDRB 4 ∧
    (∀ i, i ≠ DDB2 → i ≠ DDB3 → i ≠ DDB5 →
      Nat.testBit (begin self mode clockDiv s).hw.DDRB i = Nat.testBit s.hw.DDRB i) ∧
    Event.wrDDRB (s.hw.DDRB ||| 0x2C) ∈ (begin self mode clockDiv s).log := by
  have other : ∀ i, i ≠ DDB2 → i ≠ DDB3 → i ≠ DDB5 →
      Nat.testBit (s.hw.DDRB ||| 0x2C) i = Nat.testBit s.hw.DDRB i := by
    intro i h2 h3 h5
    rw [Nat.testBit_or, testBit_2C i h2 h3 h5, Bool.or_false]
  have hset : ∀ i, Nat.testBit 0x2C i = true → Nat.testBit (s.hw.DDRB ||| 0x2C) i = true := by
    intro i hi
    rw [Nat.testBit_or, hi, Bool.or_true]
  rw [begin_DDRB self mode clockDiv s h]
  refine ⟨rfl, hset _ (by decide), hset _ (by decide), hset _ (by decide),
    other 4 (by decide) (by decide) (by decide), other, ?_⟩
  rw [begin_log]
  have hw : Event.wrDDRB (s.hw.DDRB ||| 0x2C) ∈ beginTrace self mode clockDiv s.hw := by
    have e : ((s.hw.DDRB % 256) ||| ((1 <<< DDB3) ||| (1 <<< DDB5) ||| (1 <<< DDB2))) % 256
        = s.hw.DDRB ||| 0x2C := by
      show ((s.hw.DDRB % 256) ||| 0x2C) % 256 = s.hw.DDRB ||| 0x2C
      rw [Nat.mod_eq_of_lt h]
      exact Nat.mod_eq_of_lt (Nat.or_lt_two_pow (n := 8) h (by decide))
    simp only [beginTrace, e]
    simp
  exact List.mem_append_right _ hw

/-- C16 at a concrete state: only PB4 and PB0 are outputs before, chip-select on line 7. -/
theorem begin_port_direction_witness :
    (begin (.new 7) SPI_MODE_0 0x01
      { reset with hw := { reset.hw with DDRB := 0x11 } }).hw.DDRB = 0x3D :=
  (begin_port_direction (.new 7) SPI_MODE_0 0x01
    { reset with hw := { reset.hw with DDRB := 0x11 } } (by decide)).1

/-- C17: when the hardware shows the flag set at the `(n+1)`-th status read and the
loop bound exceeds `n`, `transferByte(d)` returns; its accesses are, in order, one
write of `d` to the data register, `n` status reads that show the flag clear, one
status read that shows it set, and one read of the data register whose value is
the one returned; with a loop bound of `n` or less it does not return. -/
theorem transferByte_protocol (P : Peripheral σ) (fuel : Nat) (self : HI_SPI_24_BIT)
    (d n : Nat) (s : Sys σ) (hb : d < 256) (hd : P.delay s.hw.dev d = some n) (hf : n < fuel) :
    (∃ r s' st, transferByte P fuel self d s = some (r, s') ∧
      s'.log = s.log ++ (Event.wrSPDR d :: List.replicate n (Event.rdSPSR st)
        ++ [Event.rdSPSR (st ||| (1 <<< SPIF)), Event.rdSPDR r]) ∧
      st &&& (1 <<< SPIF) = 0 ∧ (st ||| (1 <<< SPIF)) &&& (1 <<< SPIF) ≠ 0) ∧
    (∀ fuel', fuel' ≤ n → transferByte P fuel' self d s = none) := by
  have hd' : P.delay s.hw.dev (d % 256) = some n := by rw [Nat.mod_eq_of_lt hb]; exact hd
  obtain ⟨e1, e2, e3⟩ := flag_facts (s.hw.SPSR &&& 0x7F) (and_7F_lt _)
  constructor
  · refine ⟨(exchanged P d n s).1, (exchanged P d n s).2, s.hw.SPSR &&& 0x7F,
      transferByte_of_delay P fuel self d n s hd' hf, ?_, e2, e3⟩
    rw [exchanged_log, exchangeTrace, e1, Nat.mod_eq_of_lt hb]
  · intro fuel' hle
    rw [transferByte_eq, hd']
    simp [Nat.not_lt.mpr hle]

/-- C17 at concrete inputs: byte `0x12`, flag set at the third status read. -/
theorem transferByte_protocol_witness :
    (∃ r s' st, transferByte (stub (fun b => b + 1) 2) 3 (.new 10) 0x12 reset = some (r, s') ∧
      s'.log = reset.log ++ (Event.wrSPDR 0x12 :: List.replicate 2 (Event.rdSPSR st)
        ++ [Event.rdSPSR (st ||| (1 <<< SPIF)), Event.rdSPDR r]) ∧
      st &&& (1 <<< SPIF) = 0 ∧ (st ||| (1 <<< SPIF)) &&& (1 <<< SPIF) ≠ 0) ∧
    (∀ fuel', fuel' ≤ 2 → transferByte (stub (fun b => b + 1) 2) fuel' (.new 10) 0x12 reset
      = none) :=
  transferByte_protocol (stub (fun b => b + 1) 2) 3 (.new 10) 0x12 2 reset (by decide) rfl
    (by decide)

/-- C19: `begin` changes the status register only in its SPI2X bit: from a prior
value `v` it leaves `v | (1<<SPI2X)` when `clockDiv & 0x04` is nonzero and
`v & ~(1<<SPI2X)` otherwise, every other bit keeping its prior value; that value is
the last access of the call and its only status-register write; the control
register after the call does not depend on the state before it. -/
theorem begin_status_frame (self : HI_SPI_24_BIT) (mode clockDiv : Nat) (s : Sys σ)
    (hs : s.hw.SPSR < 256) :
    (begin self mode clockDiv s).hw.SPSR =
      (if clockDiv &&& 0x04 ≠ 0 then s.hw.SPSR ||| (1 <<< SPI2X)
       else s.hw.SPSR &&& (0xFF ^^^ (1 <<< SPI2X))) ∧
    (∀ i, i ≠ SPI2X →
      Nat.testBit (begin self mode clockDiv s).hw.SPSR i = Nat.testBit s.hw.SPSR i) ∧
    (∃ pre, (begin self mode clockDiv s).log =
        s.log ++ pre ++ [Event.wrSPSR (begin self mode clockDiv s).hw.SPSR] ∧
      ∀ v, Event.wrSPSR v ∉ pre) ∧
    (∀ t : Sys σ, (begin self mode clockDiv t).hw.SPCR = (begin self mode clockDiv s).hw.SPCR) := by
  obtain ⟨v1, v2⟩ := status_values s.hw.SPSR hs
  have hval : (begin self mode clockDiv s).hw.SPSR =
      (if clockDiv &&& 0x04 ≠ 0 then s.hw.SPSR ||| (1 <<< SPI2X)
       else s.hw.SPSR &&& (0xFF ^^^ (1 <<< SPI2X))) := by
    rw [begin_SPSR, Nat.mod_eq_of_lt hs]
    unfold statusWord
    by_cases h : clockDiv &&& 0x04 ≠ 0
    · rw [if_pos h, if_pos h]; exact v1
    · rw [if_neg h, if_neg h]; exact v2
  refine ⟨hval, ?_, ?_, fun t => by rw [begin_SPCR, begin_SPCR]⟩
  · intro i hi
    rw [hval]
    by_cases h : clockDiv &&& 0x04 ≠ 0
    · rw [if_pos h]; exact testBit_or_one _ i hi
    · rw [if_neg h]; exact testBit_and_FE _ i hs hi
  · refine ⟨(beginTrace self mode clockDiv s.hw).dropLast, ?_, ?_⟩
    · rw [begin_log, begin_SPSR, List.append_assoc]
      rfl
    · intro v hv
      simp [beginTrace] at hv

/-- C19 at a concrete state: status `0x41` (another flag set, SPI2X set), divider `0x01`. -/
theorem begin_status_frame_witness :
    (begin (.new 10) SPI_MODE_0 0x01
      { reset with hw := { reset.hw with SPSR := 0x41 } }).hw.SPSR = 0x40 :=
  (begin_status_frame (.new 10) SPI_MODE_0 0x01
    { reset with hw := { reset.hw with SPSR := 0x41 } } (by decide)).1

end HISPI
